import Mathlib

/-!
Verification of the Emergency Drone Coordination server (C sources under
src/) against its natural-language specification.  The C data structures
and the functions the claims are about are shallowly embedded as
executable Lean definitions: machine `int` fields become `Int`, arrays
become `List`s, timestamps become abstract `Nat` ticks, and the
semaphore/mutex discipline of the thread-safe list is modelled by its
sequential semantics (a `sem_wait` on a zero counter, with no other
thread able to post, is represented as a `blocked` outcome).
-/

namespace EmergencyDrone

/-- Coordinate pair, from `struct coord` in src/headers/coord.h
(`int x; int y;`). -/
structure Coord where
  x : Int
  y : Int
deriving DecidableEq, Repr, Inhabited

/-- Drone status enum, from `DroneStatus` in src/headers/drone.h
(IDLE = 0, ON_MISSION = 1, DISCONNECTED = 2). -/
inductive DroneStatus where
  | IDLE
  | ON_MISSION
  | DISCONNECTED
deriving DecidableEq, Repr, Inhabited

/-- Drone record, from `struct drone` in src/headers/drone.h.  The
`pthread_t thread_id` and `pthread_mutex_t lock` fields carry no state
relevant to the claims and are omitted; `struct tm last_update` is
abstracted to a `Nat` tick. -/
structure Drone where
  id : Int
  status : DroneStatus
  coord : Coord
  target : Coord
  last_update : Nat
  socket : Int
deriving DecidableEq, Repr, Inhabited

/-- Survivor record, from `struct survivor` in src/headers/survivor.h:
`int status` (0 = waiting, 1 = being helped, 2 = rescued), a coordinate,
two `struct tm` timestamps (abstracted to `Nat` ticks) and a `char
info[25]` tag. -/
structure Survivor where
  status : Int
  coord : Coord
  discovery_time : Nat
  helped_time : Nat
  info : String
deriving DecidableEq, Repr, Inhabited

/-- The C `INT_MAX` used to seed the minimum-distance searches in
src/ai.c. -/
def INT_MAX : Int := 2147483647

/-- Manhattan distance, from `calculate_distance` in src/ai.c:
`abs(a.x - b.x) + abs(a.y - b.y)`. -/
def calculate_distance (a b : Coord) : Int :=
  |a.x - b.x| + |a.y - b.y|

/-- The loop body of `find_closest_waiting_survivor` (src/ai.c, lines
284-298): scan the survivor array from index `i` upward carrying the
current best index (`-1` initially) and current minimum distance
(`INT_MAX` initially); a survivor is considered only when its status is
0 (waiting) and its distance is strictly below the current minimum. -/
def fcws_loop (drone_pos : Coord) : List Survivor → Nat → Int → Int → Int
  | [], _, closest_survivor_index, _ => closest_survivor_index
  | s :: rest, i, closest_survivor_index, min_distance =>
    if s.status = 0 then
      let dist := calculate_distance drone_pos s.coord
      if dist < min_distance then
        fcws_loop drone_pos rest (i + 1) (i : Int) dist
      else
        fcws_loop drone_pos rest (i + 1) closest_survivor_index min_distance
    else
      fcws_loop drone_pos rest (i + 1) closest_survivor_index min_distance

/-- `find_closest_waiting_survivor` from src/ai.c (lines 262-303): the
survivor array is passed explicitly in place of the C globals
`survivor_array` / `num_survivors`.  The C null-pointer guard on `drone`
has no counterpart for a by-value argument. -/
def find_closest_waiting_survivor (drone : Drone) (survivor_array : List Survivor) : Int :=
  fcws_loop drone.coord survivor_array 0 (-1) INT_MAX

/-- `assign_mission` from src/ai.c (lines 68-192).  The state it touches
(the drone and the survivor array) is passed and returned explicitly;
`now` stands for the wall-clock tick written into `last_update`;
`send_ok` tells whether the `send()` of the ASSIGN_MISSION JSON message
returns a positive byte count.  Out-of-range survivor indices hit the
initial guard and leave all state unchanged.  On send failure the code
rolls the two status fields back (`drone->status = IDLE;
survivor_array[survivor_index].status = 0;`) but leaves `target` and
`last_update` at their new values. -/
def assign_mission (drone : Drone) (survivor_array : List Survivor)
    (survivor_index : Int) (now : Nat) (send_ok : Bool) :
    Drone × List Survivor :=
  if survivor_index < 0 ∨ (survivor_array.length : Int) ≤ survivor_index then
    (drone, survivor_array)
  else
    let i := survivor_index.toNat
    let s := survivor_array.getD i default
    if s.status = 0 ∧ drone.status = DroneStatus.IDLE then
      let drone1 : Drone :=
        { drone with target := s.coord, status := DroneStatus.ON_MISSION, last_update := now }
      let survivors1 := survivor_array.set i { s with status := 1 }
      if 0 < drone.socket then
        if send_ok then
          (drone1, survivors1)
        else
          ({ drone1 with status := DroneStatus.IDLE },
           survivors1.set i { survivors1.getD i default with status := 0 })
      else
        (drone1, survivors1)
    else
      (drone, survivor_array)

/-- The reconciliation loop of `update_drone_status` (src/drone.c, lines
617-638): find the first survivor with status 1 (being helped) whose
coordinate equals the target, mark it rescued (status 2) and stamp its
`helped_time`; the boolean is the C `found_survivor` flag (when false
the code records a warning and touches nothing). -/
def uds_loop (target : Coord) (now : Nat) : List Survivor → List Survivor × Bool
  | [] => ([], false)
  | s :: rest =>
    if s.status = 1 ∧ s.coord = target then
      ({ s with status := 2, helped_time := now } :: rest, true)
    else
      let r := uds_loop target now rest
      (s :: r.1, r.2)

/-- `update_drone_status` from src/drone.c (lines 603-648).  The
function reads the drone only for logging, so the drone component of
the result is the argument unchanged. -/
def update_drone_status (drone : Drone) (target : Coord)
    (survivor_array : List Survivor) (now : Nat) :
    Drone × List Survivor × Bool :=
  (drone, uds_loop target now survivor_array)

/-- The MISSION_COMPLETE branch of `handle_drone_client` (src/drone.c,
lines 528-563): resolve the target (prefer the message's
`target_location`, else the drone's stored target), set the drone's
status to IDLE, then reconcile via `update_drone_status`. -/
def handle_mission_complete (d : Drone) (target_location : Option Coord)
    (survivor_array : List Survivor) (now : Nat) :
    Drone × List Survivor × Bool :=
  let target_coord :=
    match target_location with
    | some t => t
    | none => d.target
  let d1 := { d with status := DroneStatus.IDLE }
  update_drone_status d1 target_coord survivor_array now

/-- Map dimensions, from `Map` in src/headers/map.h (`int height; int
width;`); the per-cell survivor lists play no role in the claims. -/
structure MapDims where
  height : Int
  width : Int
deriving DecidableEq, Repr

/-- `is_valid_coordinate` from src/map.c (lines 215-217):
`x >= 0 && x < map.height && y >= 0 && y < map.width`. -/
def is_valid_coordinate (m : MapDims) (x y : Int) : Bool :=
  0 ≤ x && x < m.height && 0 ≤ y && y < m.width

/-- The STATUS_UPDATE branch of `handle_drone_client` (src/drone.c,
lines 479-527): if the message carries a `location` object its x/y are
written straight into `d->coord` (there is no bounds check of any
kind), the `status` string is mapped (`idle` to IDLE, `busy` to
ON_MISSION, anything else left alone), and `last_update` is
refreshed. -/
def apply_status_update (d : Drone) (location : Option Coord)
    (status : Option String) (now : Nat) : Drone :=
  let d1 :=
    match location with
    | some l => { d with coord := l }
    | none => d
  let d2 :=
    match status with
    | some s =>
      if s = "idle" then { d1 with status := DroneStatus.IDLE }
      else if s = "busy" then { d1 with status := DroneStatus.ON_MISSION }
      else d1
    | none => d1
  { d2 with last_update := now }

/-- One memory cell of the list from src/list.c: `struct node` of
src/headers/list.h plus its trailing data.  Pointers become optional
cell indices into the list's memory block; `occupied` is the C `int
occupied` flag. -/
structure NodeRec (α : Type) where
  prev : Option Nat
  next : Option Nat
  occupied : Bool
  data : α
deriving DecidableEq, Repr

instance (α : Type) [Inhabited α] : Inhabited (NodeRec α) :=
  ⟨{ prev := none, next := none, occupied := false, data := default }⟩

/-- State of a `struct list` (src/headers/list.h, src/list.c): the
pre-allocated memory block becomes `nodes` (cell index = offset /
nodesize), `head` / `tail` / `free_list` / `lastprocessed` are the C
pointer fields as cell indices, and the two POSIX semaphores are their
integer counters.  `number_of_elements` keeps the C `int` type as
`Int` because `removenode` can drive it negative. -/
structure ListState (α : Type) where
  nodes : List (NodeRec α)
  head : Option Nat
  tail : Option Nat
  free_list : Option Nat
  lastprocessed : Nat
  number_of_elements : Int
  capacity : Nat
  spaces_sem : Int
  elements_sem : Int
deriving DecidableEq, Repr

/-- Dereference a cell index (reads of `node->...` in list.c). -/
def getNode {α : Type} [Inhabited α] (st : ListState α) (n : Nat) : NodeRec α :=
  st.nodes.getD n default

/-- Overwrite a cell (writes through `Node *` in list.c). -/
def setNode {α : Type} (st : ListState α) (n : Nat) (r : NodeRec α) : ListState α :=
  { st with nodes := st.nodes.set n r }

/-- One iteration of the free-list construction loop of `create_list`
(src/list.c, lines 117-128): cell `i` is marked unoccupied, pushed on
the front of the free list, and the previous free head's `prev` is
pointed back at it. -/
def create_list_step {α : Type} [Inhabited α] (st : ListState α) (i : Nat) : ListState α :=
  let st1 := setNode st i
    { prev := none, next := st.free_list, occupied := false, data := default }
  let st2 :=
    match st.free_list with
    | some f => setNode st1 f { getNode st1 f with prev := some i }
    | none => st1
  { st2 with free_list := some i }

/-- `create_list` from src/list.c (lines 75-141): a zeroed memory block
of `capacity` cells (the `memset`), semaphores initialised to `0`
elements / `capacity` spaces, then the free-list construction loop over
cells `0 .. capacity-1`. -/
def create_list (α : Type) [Inhabited α] (capacity : Nat) : ListState α :=
  let init : ListState α :=
    { nodes := List.replicate capacity default
      head := none
      tail := none
      free_list := none
      lastprocessed := 0
      number_of_elements := 0
      capacity := capacity
      spaces_sem := (capacity : Int)
      elements_sem := 0 }
  (List.range capacity).foldl create_list_step init

/-- First unoccupied cell with index in `[lo, hi)`, the scanning
pattern of `find_memcell_fornode`. -/
def scanUnoccupied {α : Type} [Inhabited α] (nodes : List (NodeRec α)) (lo hi : Nat) :
    Option Nat :=
  (List.range' lo (hi - lo)).find? (fun j => !(nodes.getD j default).occupied)

/-- `find_memcell_fornode` from src/list.c (lines 152-196): scan from
`lastprocessed` to the end of the block, then from the start up to (not
including) `lastprocessed`. -/
def find_memcell_fornode {α : Type} [Inhabited α] (st : ListState α) : Option Nat :=
  match scanUnoccupied st.nodes st.lastprocessed st.nodes.length with
  | some j => some j
  | none => scanUnoccupied st.nodes 0 st.lastprocessed

/-- `get_free_node` from src/list.c (lines 208-227): pop the head of
the free list (clearing the new head's `prev` and the popped node's
links), falling back to a linear scan of the memory block. -/
def get_free_node {α : Type} [Inhabited α] (st : ListState α) :
    Option Nat × ListState α :=
  match st.free_list with
  | some n =>
    let st1 := { st with free_list := (getNode st n).next }
    let st2 :=
      match st1.free_list with
      | some m => setNode st1 m { getNode st1 m with prev := none }
      | none => st1
    let st3 := setNode st2 n { getNode st2 n with next := none, prev := none }
    (some n, st3)
  | none => (find_memcell_fornode st, st)

/-- Result of `add` (src/list.c): `ok n` is a returned `Node *` (cell
index `n`), `failed` is a `NULL` return after an error path, and
`blocked` is the sequential reading of `sem_wait(&list->spaces_sem)`
suspending on a zero counter (no other thread exists in this embedding
to post a space, so the call never returns). -/
inductive AddResult where
  | blocked
  | failed
  | ok (node : Nat)
deriving DecidableEq, Repr

/-- The cell-filling step of `add` (src/list.c, lines 271-273):
`node->occupied = 1; memcpy(node->data, data, list->datasize);`. -/
def add_fill {α : Type} [Inhabited α] (st : ListState α) (n : Nat) (data : α) :
    ListState α :=
  setNode st n { getNode st n with occupied := true, data := data }

/-- The head-splicing step of `add` (src/list.c, lines 276-284): when a
head exists, point its `prev` at the new node and the new node's `next`
at it. -/
def add_linkhead {α : Type} [Inhabited α] (st : ListState α) (n : Nat) : ListState α :=
  match st.head with
  | some oldhead =>
    let st1 := setNode st oldhead { getNode st oldhead with prev := some n }
    setNode st1 n { getNode st1 n with prev := none, next := some oldhead }
  | none => st

/-- The bookkeeping tail of `add` (src/list.c, lines 286-295): install
the new head, update `lastprocessed` and the element count, set `tail`
when the list was empty, and post `elements_sem`. -/
def add_install {α : Type} (st : ListState α) (n : Nat) : ListState α :=
  let st1 := { st with head := some n, lastprocessed := n,
                       number_of_elements := st.number_of_elements + 1 }
  let st2 := if st1.tail = none then { st1 with tail := st1.head } else st1
  { st2 with elements_sem := st2.elements_sem + 1 }

/-- `add` from src/list.c (lines 240-307): wait for a space, re-check
capacity, take a free cell, fill it, and splice it in as the new head;
posts `elements_sem` on success and re-posts the space on every failure
path. -/
def add {α : Type} [Inhabited α] (st : ListState α) (data : α) :
    AddResult × ListState α :=
  if st.spaces_sem ≤ 0 then
    (AddResult.blocked, st)
  else
    let st := { st with spaces_sem := st.spaces_sem - 1 }
    if (st.capacity : Int) ≤ st.number_of_elements then
      (AddResult.failed, { st with spaces_sem := st.spaces_sem + 1 })
    else
      match get_free_node st with
      | (none, st) => (AddResult.failed, { st with spaces_sem := st.spaces_sem + 1 })
      | (some n, st) =>
        (AddResult.ok n, add_install (add_linkhead (add_fill st n data) n) n)

/-- `removenode` from src/list.c (lines 487-542), in the exact source
order: a `NULL` node returns 1 untouched; otherwise unlink from the
neighbours, push the cell on the free list (reading the old free head
before it is replaced), clear `occupied`, decrement the element count,
fix `tail` then `head`, set `lastprocessed`, post a space and return 0.
There is no membership or occupancy check. -/
def removenode {α : Type} [Inhabited α] (st : ListState α) (node : Option Nat) :
    Int × ListState α :=
  match node with
  | none => (1, st)
  | some n =>
    let prevnode := (getNode st n).prev
    let nextnode := (getNode st n).next
    let st :=
      match prevnode with
      | some p => setNode st p { getNode st p with next := nextnode }
      | none => st
    let st :=
      match nextnode with
      | some q => setNode st q { getNode st q with prev := prevnode }
      | none => st
    let oldfree := st.free_list
    let st := setNode st n { getNode st n with next := oldfree, prev := none }
    let st :=
      match oldfree with
      | some f => setNode st f { getNode st f with prev := some n }
      | none => st
    let st := { st with free_list := some n }
    let st := setNode st n { getNode st n with occupied := false }
    let st := { st with number_of_elements := st.number_of_elements - 1 }
    let st := if st.tail = some n then { st with tail := prevnode } else st
    let st := if st.head = some n then { st with head := nextnode } else st
    (0, { st with lastprocessed := n, spaces_sem := st.spaces_sem + 1 })

/-- Outcome of the registration part of `handle_drone_client`:
`registered n` means the drone lives in cell `n`; `closedNoRegister` is
the `if (!node) { ... close(sock); return NULL; }` path;
`blockedForever` is `add` suspended on the spaces semaphore. -/
inductive HandshakeOutcome where
  | registered (node : Nat)
  | closedNoRegister
  | blockedForever
deriving DecidableEq, Repr

/-- The registration step of `handle_drone_client` (src/drone.c, lines
260-331): build the drone record from the parsed HANDSHAKE (target
initialised to the declared coordinate, `last_update` to now), assign
`drone.id = drones->number_of_elements`, and call `add`. -/
def handshake_register (st : ListState Drone) (coord : Coord)
    (status : DroneStatus) (sock : Int) (now : Nat) :
    HandshakeOutcome × ListState Drone :=
  let d : Drone :=
    { id := st.number_of_elements
      status := status
      coord := coord
      target := coord
      last_update := now
      socket := sock }
  match add st d with
  | (AddResult.ok n, st1) => (HandshakeOutcome.registered n, st1)
  | (AddResult.failed, st1) => (HandshakeOutcome.closedNoRegister, st1)
  | (AddResult.blocked, st1) => (HandshakeOutcome.blockedForever, st1)

/-- The disconnect path of `handle_drone_client` (src/drone.c, lines
379-406): mark the drone DISCONNECTED, then remove its node from the
list. -/
def session_disconnect (st : ListState Drone) (n : Nat) : ListState Drone :=
  let d := (getNode st n).data
  let st1 := setNode st n
    { getNode st n with data := { d with status := DroneStatus.DISCONNECTED } }
  (removenode st1 (some n)).2

/-- Register a sequence of drones into a fresh registry of the given
capacity (successive `drones->add` calls, discarding the returned
nodes), as `drone_server` does for successive connections. -/
def registerAll (c : Nat) (ds : List Drone) : ListState Drone :=
  ds.foldl (fun st d => (add st d).2) (create_list Drone c)

/-- Follow `next` pointers from a cell, with fuel (the C loops
`while (current != NULL) { ...; current = current->next; }`). -/
def chainFrom {α : Type} [Inhabited α] (nodes : List (NodeRec α)) :
    Nat → Option Nat → List Nat
  | 0, _ => []
  | _ + 1, none => []
  | fuel + 1, some n => n :: chainFrom nodes fuel (nodes.getD n default).next

/-- The cell indices visited by a head-to-tail traversal of the list,
in visiting order (fuel `nodes.length` suffices for every acyclic
chain). -/
def iterationNodes {α : Type} [Inhabited α] (st : ListState α) : List Nat :=
  chainFrom st.nodes st.nodes.length st.head

/-- The data payloads visited by a head-to-tail traversal, in visiting
order: the order in which `drone_centric_ai_controller` (src/ai.c,
lines 386-424) considers the drones in its assignment phase. -/
def iterationData {α : Type} [Inhabited α] (st : ListState α) : List α :=
  (iterationNodes st).map (fun n => (getNode st n).data)

/-- The assignment phase of `drone_centric_ai_controller` (src/ai.c,
lines 386-424): walk the drone list from the head; for every IDLE drone
find the closest waiting survivor and, if one exists, run
`assign_mission` (writing the updated drone back into its node).
`send_ok` gives the outcome of the `send()` inside each
`assign_mission`, per cell.  Returns the final registry and survivor
array together with the `(cell, survivor index)` assignment log in
execution order. -/
def matcher_visit (now : Nat) (send_ok : Nat → Bool) :
    Nat → ListState Drone → List Survivor → Option Nat →
    ListState Drone × List Survivor × List (Nat × Int)
  | 0, st, survivors, _ => (st, survivors, [])
  | _ + 1, st, survivors, none => (st, survivors, [])
  | fuel + 1, st, survivors, some n =>
    let d := (getNode st n).data
    if d.status = DroneStatus.IDLE then
      let survivor_index := find_closest_waiting_survivor d survivors
      if 0 ≤ survivor_index then
        let r := assign_mission d survivors survivor_index now (send_ok n)
        let st1 := setNode st n { getNode st n with data := r.1 }
        let rest := matcher_visit now send_ok fuel st1 r.2 (getNode st1 n).next
        (rest.1, rest.2.1, (n, survivor_index) :: rest.2.2)
      else
        matcher_visit now send_ok fuel st survivors (getNode st n).next
    else
      matcher_visit now send_ok fuel st survivors (getNode st n).next

/-- One matcher cycle's assignment phase, started at the list head. -/
def matcher_cycle (st : ListState Drone) (survivors : List Survivor)
    (now : Nat) (send_ok : Nat → Bool) :
    ListState Drone × List Survivor × List (Nat × Int) :=
  matcher_visit now send_ok st.nodes.length st survivors st.head

/-- Position of the first survivor with status 1 (being helped) at the
given coordinate: the record `update_drone_status` will modify, stated
as an explicit specification device for the frame theorems. -/
def firstHelpedAt (t : Coord) : List Survivor → Option Nat
  | [] => none
  | s :: rest =>
    if s.status = 1 ∧ s.coord = t then some 0
    else (firstHelpedAt t rest).map (· + 1)

/-! ## General list helper lemmas -/

theorem set_getD_self {β : Type} :
    ∀ (l : List β) (i : Nat) (d : β), l.set i (l.getD i d) = l
  | [], _, _ => by simp
  | _ :: _, 0, _ => by simp
  | b :: t, i + 1, d => by
    simpa using set_getD_self t i d

theorem getD_set_eq {β : Type} :
    ∀ (l : List β) (i : Nat) (a d : β), i < l.length → (l.set i a).getD i d = a
  | [], i, _, _, h => absurd h (by simp)
  | _ :: _, 0, _, _, _ => rfl
  | b :: t, i + 1, a, d, h => by
    simpa using getD_set_eq t i a d (by simpa using h)

/-! ## C1: the assignment transaction -/

/-- C1: `assign_mission(drone, survivor_index)` is a transaction on the
drone and the survivor: when the survivor is WAITING (status 0) and the
drone is IDLE it sets the drone's target to the survivor's coordinate,
the drone's status to ON_MISSION, the survivor's status to BEING_HELPED
(1) and refreshes `last_update`; when the subsequent `send` of the
ASSIGN_MISSION message fails both status fields are rolled back to
their prior values (the survivor array is exactly as before; the
drone's status is again its prior IDLE, with only `target` and
`last_update` retaining their new values); when the precondition fails
the operation is a no-op on drone and survivor state. -/
theorem C1_assign_mission_transaction
    (drone : Drone) (survivors : List Survivor) (i : Nat) (now : Nat) (send_ok : Bool)
    (hi : i < survivors.length) :
    ((survivors.getD i default).status = 0 → drone.status = DroneStatus.IDLE →
      (0 < drone.socket → send_ok = true) →
      assign_mission drone survivors (i : Int) now send_ok =
        ({ drone with target := (survivors.getD i default).coord,
                      status := DroneStatus.ON_MISSION, last_update := now },
         survivors.set i { survivors.getD i default with status := 1 })) ∧
    ((survivors.getD i default).status = 0 → drone.status = DroneStatus.IDLE →
      0 < drone.socket → send_ok = false →
      assign_mission drone survivors (i : Int) now send_ok =
        ({ drone with target := (survivors.getD i default).coord, last_update := now },
         survivors)) ∧
    (¬((survivors.getD i default).status = 0 ∧ drone.status = DroneStatus.IDLE) →
      assign_mission drone survivors (i : Int) now send_ok = (drone, survivors)) := by
  have hg : ¬((i : Int) < 0 ∨ (survivors.length : Int) ≤ (i : Int)) := by
    omega
  refine ⟨?_, ?_, ?_⟩
  · intro hs hd hsend
    simp only [assign_mission, if_neg hg, Int.toNat_natCast, if_pos (And.intro hs hd)]
    by_cases hsock : 0 < drone.socket
    · rw [if_pos hsock, hsend hsock, if_pos rfl]
    · rw [if_neg hsock]
  · intro hs hd hsock hfail
    rw [hfail] at *
    simp only [assign_mission, if_neg hg, Int.toNat_natCast, if_pos (And.intro hs hd),
      if_pos hsock, Bool.false_eq_true, if_false]
    rcases hget : survivors.getD i default with ⟨sst, sco, sdt, sht, sinf⟩
    rw [hget] at hs
    simp only at hs
    subst hs
    rw [getD_set_eq _ _ _ _ (by simpa using hi), List.set_set, Prod.mk.injEq]
    refine ⟨?_, ?_⟩
    · rw [hd]
    · show survivors.set i
        ({ status := 0, coord := sco, discovery_time := sdt, helped_time := sht,
           info := sinf }) = survivors
      rw [← hget]
      exact set_getD_self survivors i default
  · intro hpre
    simp only [assign_mission, if_neg hg, Int.toNat_natCast, if_neg hpre]

def c1surv : Survivor :=
  { status := 0, coord := ⟨3, 4⟩, discovery_time := 0, helped_time := 0, info := "S" }

def c1droneNet : Drone :=
  { id := 7, status := DroneStatus.IDLE, coord := ⟨0, 0⟩, target := ⟨0, 0⟩,
    last_update := 0, socket := 9 }

def c1droneBusy : Drone :=
  { id := 8, status := DroneStatus.ON_MISSION, coord := ⟨0, 0⟩, target := ⟨2, 2⟩,
    last_update := 0, socket := 9 }

/-- Witness for C1: the three branches of the transaction at concrete
inputs (successful send, failed send with rollback, and failed
precondition). -/
theorem C1_assign_mission_transaction_witness :
    assign_mission c1droneNet [c1surv] ((0 : Nat) : Int) 5 true =
      ({ c1droneNet with target := ([c1surv].getD 0 default).coord,
                         status := DroneStatus.ON_MISSION, last_update := 5 },
       [c1surv].set 0 { [c1surv].getD 0 default with status := 1 }) ∧
    assign_mission c1droneNet [c1surv] ((0 : Nat) : Int) 5 false =
      ({ c1droneNet with target := ([c1surv].getD 0 default).coord, last_update := 5 },
       [c1surv]) ∧
    assign_mission c1droneBusy [c1surv] ((0 : Nat) : Int) 5 true = (c1droneBusy, [c1surv]) := by
  refine ⟨?_, ?_, ?_⟩
  · exact (C1_assign_mission_transaction c1droneNet [c1surv] 0 5 true (by decide)).1
      (by decide) (by decide) (fun _ => rfl)
  · exact (C1_assign_mission_transaction c1droneNet [c1surv] 0 5 false (by decide)).2.1
      (by decide) (by decide) (by decide) rfl
  · exact (C1_assign_mission_transaction c1droneBusy [c1surv] 0 5 true (by decide)).2.2
      (by decide)

/-! ## C10 and C9: completion reconciliation -/

/-- The reconciliation loop rescues exactly the first being-helped
survivor at the target (characterised through `firstHelpedAt`), leaving
everything else alone; when there is none it is the identity and
reports `false`. -/
theorem uds_loop_spec (t : Coord) (now : Nat) :
    ∀ l : List Survivor,
      (match firstHelpedAt t l with
       | some k =>
           uds_loop t now l =
             (l.set k { l.getD k default with status := 2, helped_time := now }, true)
       | none => uds_loop t now l = (l, false))
  | [] => by simp [firstHelpedAt, uds_loop]
  | s :: rest => by
    by_cases h : s.status = 1 ∧ s.coord = t
    · simp [firstHelpedAt, uds_loop, h]
    · have ih := uds_loop_spec t now rest
      cases hf : firstHelpedAt t rest with
      | none =>
        rw [hf] at ih
        simp [firstHelpedAt, uds_loop, h, hf, ih]
      | some k =>
        rw [hf] at ih
        simp [firstHelpedAt, uds_loop, h, hf, ih]

/-- If no survivor in the array is being helped at the target, the
reconciliation loop changes nothing and reports `false`. -/
theorem uds_loop_nomatch (t : Coord) (now : Nat) :
    ∀ l : List Survivor, (∀ s ∈ l, ¬(s.status = 1 ∧ s.coord = t)) →
      uds_loop t now l = (l, false)
  | [], _ => rfl
  | s :: rest, h => by
    have hs := h s (by simp)
    have ih := uds_loop_nomatch t now rest (fun x hx => h x (by simp [hx]))
    simp [uds_loop, hs, ih]

/-- C10: `update_drone_status(drone, target)` modifies at most the
first survivor with status BEING_HELPED and coordinate equal to the
target, and only that survivor's `status` and `helped_time` fields;
every other survivor record, the array length (`num_survivors`), and
the drone (in particular its `coord` and `target`) are unchanged; when
no such survivor exists the whole array is unchanged and only the
warning flag (`found_survivor = false`) is reported. -/
theorem C10_update_drone_status_frame
    (d : Drone) (t : Coord) (survivors : List Survivor) (now : Nat) :
    (update_drone_status d t survivors now).1 = d ∧
    (update_drone_status d t survivors now).2.1.length = survivors.length ∧
    (match firstHelpedAt t survivors with
     | some k =>
         (update_drone_status d t survivors now).2.1 =
           survivors.set k { survivors.getD k default with status := 2, helped_time := now } ∧
         (update_drone_status d t survivors now).2.2 = true
     | none =>
         (update_drone_status d t survivors now).2.1 = survivors ∧
         (update_drone_status d t survivors now).2.2 = false) := by
  have h := uds_loop_spec t now survivors
  refine ⟨rfl, ?_, ?_⟩
  · cases hf : firstHelpedAt t survivors with
    | none =>
      rw [hf] at h
      simp [update_drone_status, h]
    | some k =>
      rw [hf] at h
      simp [update_drone_status, h]
  · cases hf : firstHelpedAt t survivors with
    | none =>
      rw [hf] at h
      simp [update_drone_status, h]
    | some k =>
      rw [hf] at h
      simp [update_drone_status, h]

/-- After one pass of the reconciliation loop, a second pass over its
output finds nothing and is the identity, provided the original array
held at most one match for the target. -/
theorem uds_loop_idem (t : Coord) (now1 now2 : Nat) :
    ∀ l : List Survivor,
      l.countP (fun s => decide (s.status = 1 ∧ s.coord = t)) ≤ 1 →
      uds_loop t now2 (uds_loop t now1 l).1 = ((uds_loop t now1 l).1, false)
  | [], _ => rfl
  | s :: rest, h => by
    by_cases hs : s.status = 1 ∧ s.coord = t
    · have hrest : rest.countP (fun s => decide (s.status = 1 ∧ s.coord = t)) = 0 := by
        have hps : decide (s.status = 1 ∧ s.coord = t) = true := by simp [hs]
        rw [List.countP_cons, hps, if_pos rfl] at h
        omega
      have hnom : ∀ x ∈ rest, ¬(x.status = 1 ∧ x.coord = t) := by
        intro x hx
        have := List.countP_eq_zero.mp hrest x hx
        simpa using this
      have hz := uds_loop_nomatch t now2 rest hnom
      simp [uds_loop, hs, hz]
    · have hcount : rest.countP (fun s => decide (s.status = 1 ∧ s.coord = t)) ≤ 1 := by
        rw [List.countP_cons] at h
        omega
      have ih := uds_loop_idem t now1 now2 rest hcount
      simp [uds_loop, hs, ih]

/-- C9 (amended): applying the MISSION_COMPLETE reconciliation twice
for the same (drone, resolved target t) produces the same final
survivor state as applying it once — and the second application changes
no survivor record — provided at most one survivor is BEING_HELPED at
coordinate t (which holds in particular whenever survivor coordinates
are pairwise distinct). -/
theorem C9_mission_complete_idempotent
    (d : Drone) (t : Coord) (survivors : List Survivor) (now1 now2 : Nat)
    (huniq : survivors.countP (fun s => decide (s.status = 1 ∧ s.coord = t)) ≤ 1) :
    handle_mission_complete (handle_mission_complete d (some t) survivors now1).1
        (some t) (handle_mission_complete d (some t) survivors now1).2.1 now2 =
      ((handle_mission_complete d (some t) survivors now1).1,
       (handle_mission_complete d (some t) survivors now1).2.1, false) := by
  have h := uds_loop_idem t now1 now2 survivors huniq
  simp [handle_mission_complete, update_drone_status, h]

def c9drone : Drone :=
  { id := 2, status := DroneStatus.ON_MISSION, coord := ⟨3, 4⟩, target := ⟨3, 4⟩,
    last_update := 0, socket := 5 }

def c9survivors : List Survivor :=
  [{ status := 1, coord := ⟨3, 4⟩, discovery_time := 0, helped_time := 0, info := "A" },
   { status := 1, coord := ⟨3, 4⟩, discovery_time := 0, helped_time := 0, info := "B" }]

def c9once : Drone × List Survivor × Bool :=
  handle_mission_complete c9drone (some ⟨3, 4⟩) c9survivors 5

def c9twice : Drone × List Survivor × Bool :=
  handle_mission_complete c9once.1 (some ⟨3, 4⟩) c9once.2.1 6

/-- Counterexample to C9 as stated: with two survivors both
BEING_HELPED at the same coordinate (3,4) — reachable, since two
survivors may be generated on one cell and each assigned to a drone —
a second MISSION_COMPLETE for the same (drone, target) rescues the
second survivor too, so the final statuses differ from a single
application and the second application does change a survivor
record. -/
theorem C9_counterexample :
    c9twice.2.1.map Survivor.status ≠ c9once.2.1.map Survivor.status ∧
    c9twice.2.1.getD 1 default ≠ c9once.2.1.getD 1 default := by
  decide

def c9wsurvivors : List Survivor :=
  [{ status := 1, coord := ⟨3, 4⟩, discovery_time := 0, helped_time := 0, info := "A" },
   { status := 1, coord := ⟨5, 5⟩, discovery_time := 0, helped_time := 0, info := "B" }]

/-- Witness for C9 (amended) at a concrete state with distinct
coordinates. -/
theorem C9_mission_complete_idempotent_witness :
    handle_mission_complete (handle_mission_complete c9drone (some ⟨3, 4⟩) c9wsurvivors 5).1
        (some ⟨3, 4⟩) (handle_mission_complete c9drone (some ⟨3, 4⟩) c9wsurvivors 5).2.1 6 =
      ((handle_mission_complete c9drone (some ⟨3, 4⟩) c9wsurvivors 5).1,
       (handle_mission_complete c9drone (some ⟨3, 4⟩) c9wsurvivors 5).2.1, false) :=
  C9_mission_complete_idempotent c9drone ⟨3, 4⟩ c9wsurvivors 5 6 (by decide)

/-! ## C8: coordinate validation -/

def c8drone : Drone :=
  { id := 0, status := DroneStatus.IDLE, coord := ⟨0, 0⟩, target := ⟨0, 0⟩,
    last_update := 0, socket := 3 }

/-- C8 evaluated at the failing input: on a 10 by 10 map
`is_valid_coordinate` does accept (0,0) and (9,9) and reject (10,10)
and negatives, but the STATUS_UPDATE branch of `handle_drone_client`
applies the message's location to the drone with no validation at all:
a STATUS_UPDATE carrying the out-of-bounds location (10,10) leaves the
drone's coordinate at (10,10), which `is_valid_coordinate` itself
rejects. -/
theorem C8_status_update_unvalidated :
    is_valid_coordinate ⟨10, 10⟩ 0 0 = true ∧
    is_valid_coordinate ⟨10, 10⟩ 9 9 = true ∧
    is_valid_coordinate ⟨10, 10⟩ 10 10 = false ∧
    is_valid_coordinate ⟨10, 10⟩ (-1) 0 = false ∧
    is_valid_coordinate ⟨10, 10⟩ 0 (-1) = false ∧
    (apply_status_update c8drone (some ⟨10, 10⟩) (some "busy") 7).coord = ⟨10, 10⟩ ∧
    is_valid_coordinate ⟨10, 10⟩
      (apply_status_update c8drone (some ⟨10, 10⟩) (some "busy") 7).coord.x
      (apply_status_update c8drone (some ⟨10, 10⟩) (some "busy") 7).coord.y = false := by
  decide

/-! ## C2: closest waiting survivor — counterexample -/

def c2drone : Drone :=
  { id := 0, status := DroneStatus.IDLE, coord := ⟨0, 0⟩, target := ⟨0, 0⟩,
    last_update := 0, socket := -1 }

def c2survivors : List Survivor :=
  [{ status := 0, coord := ⟨2147483647, 0⟩, discovery_time := 0, helped_time := 0,
     info := "far" }]

/-- Counterexample to C2 as stated: a waiting survivor whose Manhattan
distance to the drone is exactly INT_MAX is never accepted by the
strict `dist < min_distance` test seeded with INT_MAX, so the function
returns -1 although a survivor is waiting (this run of the C code is
free of undefined behaviour: every intermediate value fits in int). -/
theorem C2_counterexample :
    (c2survivors.getD 0 default).status = 0 ∧
    0 < c2survivors.length ∧
    calculate_distance c2drone.coord ((c2survivors.getD 0 default).coord) = INT_MAX ∧
    find_closest_waiting_survivor c2drone c2survivors = -1 := by
  decide

/-! ## C5: id assignment reuses ids after a removal -/

def c5st1 : ListState Drone :=
  (handshake_register (create_list Drone 4) ⟨0, 0⟩ DroneStatus.IDLE (-1) 0).2

def c5st2 : ListState Drone :=
  (handshake_register c5st1 ⟨1, 1⟩ DroneStatus.IDLE (-1) 1).2

def c5st3 : ListState Drone := session_disconnect c5st2 3

def c5final : HandshakeOutcome × ListState Drone :=
  handshake_register c5st3 ⟨2, 2⟩ DroneStatus.IDLE (-1) 2

/-- C5 evaluated at a failing trace: register two drones (they receive
ids 0 and 1, cells 3 and 2), disconnect the first one (its node is
removed), then register a third drone.  Because
`handle_drone_client` assigns `drone.id = drones->number_of_elements`,
the third drone receives id 1 again: the registry then holds two
distinct occupied cells whose drones share id 1, the id sequence
0, 1, 1 is not monotonically increasing, and id 1 has been reused
after the DISCONNECTED registration freed a slot. -/
theorem C5_duplicate_id_eval :
    (getNode c5st2 3).data.id = 0 ∧
    (getNode c5st2 2).data.id = 1 ∧
    c5final.1 = HandshakeOutcome.registered 3 ∧
    iterationNodes c5final.2 = [3, 2] ∧
    (getNode c5final.2 2).occupied = true ∧
    (getNode c5final.2 3).occupied = true ∧
    (getNode c5final.2 2).data.id = 1 ∧
    (getNode c5final.2 3).data.id = 1 := by
  decide

/-! ## C6: removenode is not idempotent -/

theorem getD_map {β γ : Type} (f : β → γ) :
    ∀ (l : List β) (i : Nat) (d : β), (l.map f).getD i (f d) = f (l.getD i d)
  | [], _, _ => rfl
  | _ :: _, 0, _ => rfl
  | b :: t, i + 1, d => by simp [getD_map f t i d]

/-- Occupancy view of the memory block: which cells currently hold a
member of the list. -/
def occupancy {α : Type} (st : ListState α) : List Bool :=
  st.nodes.map NodeRec.occupied

theorem occ_getD {α : Type} [Inhabited α] (st : ListState α) (p : Nat) :
    (getNode st p).occupied = (st.nodes.map NodeRec.occupied).getD p false :=
  (getD_map NodeRec.occupied st.nodes p default).symm

/-- A `setNode` whose record keeps the cell's current `occupied` flag
preserves the occupancy view. -/
theorem occupancy_set_same {α : Type} [Inhabited α] (st : ListState α) (p : Nat)
    (r : NodeRec α) (h : r.occupied = (getNode st p).occupied) :
    (setNode st p r).nodes.map NodeRec.occupied = st.nodes.map NodeRec.occupied := by
  show (st.nodes.set p r).map _ = _
  rw [List.map_set, h, occ_getD, set_getD_self]

/-- A `setNode` whose record has `occupied = false` clears exactly that
cell in the occupancy view. -/
theorem occupancy_set_clear {α : Type} [Inhabited α] (st : ListState α) (p : Nat)
    (r : NodeRec α) (h : r.occupied = false) :
    (setNode st p r).nodes.map NodeRec.occupied =
      (st.nodes.map NodeRec.occupied).set p false := by
  show (st.nodes.set p r).map _ = _
  rw [List.map_set, h]

/-- Instance of `occupancy_set_same` in the syntactic shape produced by
the pointer-surgery record updates (`occupied` and `data` fields read
back from the same cell). -/
theorem occupancy_set_keep {α : Type} [Inhabited α] (st : ListState α) (p : Nat)
    (pr nx : Option Nat) :
    (setNode st p
        { prev := pr, next := nx, occupied := (getNode st p).occupied,
          data := (getNode st p).data }).nodes.map NodeRec.occupied =
      st.nodes.map NodeRec.occupied :=
  occupancy_set_same st p _ rfl

/-- The neighbour-unlinking prefix of `removenode` (src/list.c, lines
497-509), as a named step for compositional reasoning.  `removenode`
is definitionally this step followed by `remove_pushfree`,
`remove_clear` and `remove_fixends` below. -/
def remove_unlink {α : Type} [Inhabited α] (st : ListState α) (n : Nat) : ListState α :=
  let prevnode := (getNode st n).prev
  let nextnode := (getNode st n).next
  let st1 :=
    match prevnode with
    | some p => setNode st p { getNode st p with next := nextnode }
    | none => st
  match nextnode with
  | some q => setNode st1 q { getNode st1 q with prev := prevnode }
  | none => st1

/-- The free-list push of `removenode` (src/list.c, lines 511-516). -/
def remove_pushfree {α : Type} [Inhabited α] (st : ListState α) (n : Nat) : ListState α :=
  let oldfree := st.free_list
  let st1 := setNode st n { getNode st n with next := oldfree, prev := none }
  let st2 :=
    match oldfree with
    | some f => setNode st1 f { getNode st1 f with prev := some n }
    | none => st1
  { st2 with free_list := some n }

/-- The occupancy clearing and count decrement of `removenode`
(src/list.c, lines 518-520). -/
def remove_clear {α : Type} [Inhabited α] (st : ListState α) (n : Nat) : ListState α :=
  let st1 := setNode st n { getNode st n with occupied := false }
  { st1 with number_of_elements := st1.number_of_elements - 1 }

/-- The tail/head fixup, `lastprocessed` update and space post of
`removenode` (src/list.c, lines 522-537); `prevnode` / `nextnode` are
the pointers read at entry. -/
def remove_fixends {α : Type} (st : ListState α) (n : Nat)
    (prevnode nextnode : Option Nat) : ListState α :=
  let st1 := if st.tail = some n then { st with tail := prevnode } else st
  let st2 := if st1.head = some n then { st1 with head := nextnode } else st1
  { st2 with lastprocessed := n, spaces_sem := st2.spaces_sem + 1 }

/-- `removenode` on a non-null handle is the composition of the four
steps (definitional). -/
theorem removenode_some {α : Type} [Inhabited α] (st : ListState α) (n : Nat) :
    removenode st (some n) =
      (0, remove_fixends (remove_clear (remove_pushfree (remove_unlink st n) n) n) n
        (getNode st n).prev (getNode st n).next) := rfl

theorem occupancy_remove_unlink {α : Type} [Inhabited α] (st : ListState α) (n : Nat) :
    (remove_unlink st n).nodes.map NodeRec.occupied = st.nodes.map NodeRec.occupied := by
  rw [remove_unlink]
  rcases (getNode st n).prev with _ | p <;> rcases (getNode st n).next with _ | q <;>
    dsimp only <;>
    simp only [occupancy_set_keep]

theorem occupancy_remove_pushfree {α : Type} [Inhabited α] (st : ListState α) (n : Nat) :
    (remove_pushfree st n).nodes.map NodeRec.occupied = st.nodes.map NodeRec.occupied := by
  rw [remove_pushfree]
  rcases st.free_list with _ | f <;> dsimp only <;>
    simp only [occupancy_set_keep]

theorem occupancy_remove_clear {α : Type} [Inhabited α] (st : ListState α) (n : Nat) :
    (remove_clear st n).nodes.map NodeRec.occupied =
      (st.nodes.map NodeRec.occupied).set n false :=
  occupancy_set_clear _ _ _ rfl

theorem occupancy_remove_fixends {α : Type} (st : ListState α) (n : Nat)
    (a b : Option Nat) :
    (remove_fixends st n a b).nodes.map NodeRec.occupied =
      st.nodes.map NodeRec.occupied := by
  rw [remove_fixends]
  split <;> split <;> rfl

/-- `removenode` on a non-null handle clears exactly that cell's
occupancy bit: the pointer surgery on the neighbours and the free list
never touches an `occupied` field. -/
theorem occupied_map_removenode {α : Type} [Inhabited α] (st : ListState α) (n : Nat) :
    (removenode st (some n)).2.nodes.map NodeRec.occupied =
      (st.nodes.map NodeRec.occupied).set n false := by
  rw [removenode_some]
  show (remove_fixends _ _ _ _).nodes.map _ = _
  rw [occupancy_remove_fixends, occupancy_remove_clear, occupancy_remove_pushfree,
    occupancy_remove_unlink]

theorem count_remove_unlink {α : Type} [Inhabited α] (st : ListState α) (n : Nat) :
    (remove_unlink st n).number_of_elements = st.number_of_elements := by
  rw [remove_unlink]
  rcases (getNode st n).prev with _ | p <;> rcases (getNode st n).next with _ | q <;>
    dsimp only <;> rfl

theorem count_remove_pushfree {α : Type} [Inhabited α] (st : ListState α) (n : Nat) :
    (remove_pushfree st n).number_of_elements = st.number_of_elements := by
  rw [remove_pushfree]
  rcases st.free_list with _ | f <;> dsimp only <;> rfl

theorem count_remove_fixends {α : Type} (st : ListState α) (n : Nat) (a b : Option Nat) :
    (remove_fixends st n a b).number_of_elements = st.number_of_elements := by
  rw [remove_fixends]
  split <;> split <;> rfl

/-- `removenode` on a non-null handle always decrements
`number_of_elements`, occupied or not. -/
theorem count_removenode {α : Type} [Inhabited α] (st : ListState α) (n : Nat) :
    (removenode st (some n)).2.number_of_elements = st.number_of_elements - 1 := by
  rw [removenode_some]
  show (remove_fixends _ _ _ _).number_of_elements = _
  rw [count_remove_fixends]
  show (remove_clear _ _).number_of_elements = _
  rw [remove_clear]
  show (remove_pushfree _ _).number_of_elements - 1 = _
  rw [count_remove_pushfree, count_remove_unlink]

def c6drone : Drone :=
  { id := 0, status := DroneStatus.IDLE, coord := ⟨2, 2⟩, target := ⟨2, 2⟩,
    last_update := 0, socket := 4 }

def c6state : ListState Drone := registerAll 2 [c6drone]

/-- Counterexample to C6 as stated: in a capacity-2 registry holding
one drone (in cell 1), applying `removenode` twice on that cell's
handle does not leave the registry in the state one application
produces — the second call decrements `number_of_elements` again (to
-1) and corrupts the free list, because `removenode` performs no
occupancy or membership check. -/
theorem C6_counterexample :
    (removenode (removenode c6state (some 1)).2 (some 1)).2 ≠
      (removenode c6state (some 1)).2 ∧
    (removenode (removenode c6state (some 1)).2 (some 1)).2.number_of_elements = -1 ∧
    (removenode c6state (some 1)).2.number_of_elements = 0 := by
  decide

/-- C6 (amended): removal by handle is idempotent only on the
occupancy of the memory cells (the removed element stays removed), not
on the registry state: every application of `removenode` with a
non-null handle decrements `number_of_elements`, so the second
application leaves the element count one lower than the first; only
the NULL handle is a true no-op (returning 1). -/
theorem C6_removenode_not_idempotent {α : Type} [Inhabited α]
    (st : ListState α) (n : Nat) :
    occupancy (removenode (removenode st (some n)).2 (some n)).2 =
      occupancy (removenode st (some n)).2 ∧
    (removenode (removenode st (some n)).2 (some n)).2.number_of_elements =
      (removenode st (some n)).2.number_of_elements - 1 ∧
    removenode st none = (1, st) := by
  refine ⟨?_, count_removenode _ _, rfl⟩
  rw [occupancy, occupancy, occupied_map_removenode, occupied_map_removenode,
    List.set_set]

/-! ## Explicit characterisation of registries built by successive adds

`create_list` pre-allocates its cells with the free list threaded from
cell `capacity-1` down to cell `0`, and every successful `add` pops the
free-list head and makes it the new list head.  After `k`
registrations into a fresh registry the occupied cells are therefore
`c-k .. c-1`, chained by `next` pointers from the head `c-k` to the
tail `c-1`, and cell `j` holds the `(c-1-j)`-th registered element. -/

theorem getD_map_range {β : Type} (c : Nat) (f : Nat → β) (j : Nat) (d : β)
    (h : j < c) : ((List.range c).map f).getD j d = f j := by
  rw [List.getD_eq_getElem _ _ (by simpa using h)]
  simp

theorem set_map_range {β : Type} (c : Nat) (f : Nat → β) (j : Nat) (v : β) :
    ((List.range c).map f).set j v =
      (List.range c).map (fun i => if i = j then v else f i) := by
  apply List.ext_getElem (by simp)
  intro k h1 h2
  simp only [List.getElem_set, List.getElem_map, List.getElem_range]
  by_cases hk : j = k
  · subst hk
    simp
  · rw [if_neg hk, if_neg (fun hjk => hk hjk.symm)]

/-- The memory cell at index `j` after registering `regs` (in order)
into a fresh registry of capacity `c`. -/
def nodeAfter {α : Type} [Inhabited α] (c : Nat) (regs : List α) (j : Nat) :
    NodeRec α :=
  if j + regs.length < c then
    { prev := if j + 1 + regs.length = c then none else some (j + 1)
      next := if j = 0 then none else some (j - 1)
      occupied := false
      data := default }
  else
    { prev := if j + regs.length = c then none else some (j - 1)
      next := if j + 1 = c then none else some (j + 1)
      occupied := true
      data := regs.getD (c - 1 - j) default }

/-- The registry state after registering `regs` (in order) into a
fresh registry of capacity `c`. -/
def stateAfter {α : Type} [Inhabited α] (c : Nat) (regs : List α) : ListState α :=
  { nodes := (List.range c).map (nodeAfter c regs)
    head := if regs.length = 0 then none else some (c - regs.length)
    tail := if regs.length = 0 then none else some (c - 1)
    free_list := if regs.length = c then none else some (c - regs.length - 1)
    lastprocessed := if regs.length = 0 then 0 else c - regs.length
    number_of_elements := (regs.length : Int)
    capacity := c
    spaces_sem := (c : Int) - regs.length
    elements_sem := (regs.length : Int) }

/-- The state reached after the first `m` iterations of the free-list
construction loop of `create_list`. -/
def buildPartial (α : Type) [Inhabited α] (c m : Nat) : ListState α :=
  { nodes := (List.range c).map (fun j =>
      if j < m then
        { prev := if j + 1 = m then none else some (j + 1)
          next := if j = 0 then none else some (j - 1)
          occupied := false
          data := default }
      else default)
    head := none
    tail := none
    free_list := if m = 0 then none else some (m - 1)
    lastprocessed := 0
    number_of_elements := 0
    capacity := c
    spaces_sem := (c : Int)
    elements_sem := 0 }

theorem getD_set_ne {β : Type} :
    ∀ (l : List β) (i j : Nat) (a d : β), i ≠ j → (l.set i a).getD j d = l.getD j d
  | [], _, _, _, _, _ => rfl
  | _ :: _, 0, 0, _, _, h => absurd rfl h
  | _ :: t, 0, j + 1, a, d, _ => by simp
  | _ :: t, i + 1, 0, a, d, _ => rfl
  | b :: t, i + 1, j + 1, a, d, h => by
    simp only [List.set_cons_succ, List.getD_cons_succ]
    exact getD_set_ne t i j a d (fun hij => h (by omega))

theorem map_range_congr {β : Type} (c : Nat) (f g : Nat → β)
    (h : ∀ i, i < c → f i = g i) :
    (List.range c).map f = (List.range c).map g := by
  apply List.map_congr_left
  intro a ha
  exact h a (List.mem_range.mp ha)

theorem listStateExt {α : Type} {s t : ListState α}
    (h1 : s.nodes = t.nodes) (h2 : s.head = t.head) (h3 : s.tail = t.tail)
    (h4 : s.free_list = t.free_list) (h5 : s.lastprocessed = t.lastprocessed)
    (h6 : s.number_of_elements = t.number_of_elements) (h7 : s.capacity = t.capacity)
    (h8 : s.spaces_sem = t.spaces_sem) (h9 : s.elements_sem = t.elements_sem) :
    s = t := by
  cases s
  cases t
  dsimp only at h1 h2 h3 h4 h5 h6 h7 h8 h9
  rw [h1, h2, h3, h4, h5, h6, h7, h8, h9]

theorem nodeRecExt {α : Type} {r s : NodeRec α}
    (h1 : r.prev = s.prev) (h2 : r.next = s.next) (h3 : r.occupied = s.occupied)
    (h4 : r.data = s.data) : r = s := by
  cases r
  cases s
  dsimp only at h1 h2 h3 h4
  rw [h1, h2, h3, h4]

theorem buildPartial_zero (α : Type) [Inhabited α] (c : Nat) :
    buildPartial α c 0 =
      { nodes := List.replicate c default
        head := none
        tail := none
        free_list := none
        lastprocessed := 0
        number_of_elements := 0
        capacity := c
        spaces_sem := (c : Int)
        elements_sem := 0 } := by
  refine listStateExt ?_ rfl rfl (by simp [buildPartial]) rfl rfl rfl rfl rfl
  show (List.range c).map _ = List.replicate c default
  apply List.ext_getElem (by simp)
  intro k h1 h2
  simp

theorem buildPartial_step (α : Type) [Inhabited α] (c m : Nat) (hm : m < c) :
    create_list_step (buildPartial α c m) m = buildPartial α c (m + 1) := by
  rcases Nat.eq_zero_or_pos m with hm0 | hmpos
  · subst hm0
    have hfr : (buildPartial α c 0).free_list = none := by
      dsimp only [buildPartial]
      rw [if_pos rfl]
    simp only [create_list_step, hfr]
    dsimp only [buildPartial, setNode]
    refine listStateExt ?_ rfl rfl (by simp) rfl rfl rfl rfl rfl
    show ((List.range c).map _).set 0 _ = (List.range c).map _
    rw [set_map_range]
    apply map_range_congr
    intro i hi
    split_ifs <;> first | rfl | omega
  · have hfr : (buildPartial α c m).free_list = some (m - 1) := by
      dsimp only [buildPartial]
      rw [if_neg (by omega)]
    simp only [create_list_step, hfr]
    have hget : getNode
        (setNode (buildPartial α c m) m
          { prev := none, next := some (m - 1), occupied := false, data := default })
        (m - 1) =
        { prev := if m - 1 + 1 = m then none else some (m - 1 + 1)
          next := if m - 1 = 0 then none else some (m - 1 - 1)
          occupied := false
          data := default } := by
      show ((((List.range c).map _).set m _).getD (m - 1) default : NodeRec α) = _
      rw [getD_set_ne _ _ _ _ _ (by omega), getD_map_range _ _ _ _ (by omega),
        if_pos (by omega)]
    rw [hget]
    dsimp only [buildPartial, setNode]
    refine listStateExt ?_ rfl rfl (by simp) rfl rfl rfl rfl rfl
    show (((List.range c).map _).set m _).set (m - 1) _ = (List.range c).map _
    rw [set_map_range, set_map_range]
    apply map_range_congr
    intro i hi
    dsimp only
    split_ifs <;>
      first
        | rfl
        | omega
        | (refine nodeRecExt ?_ ?_ rfl rfl <;>
            first | rfl | omega | (exact congrArg some (by omega)))

theorem foldl_range_succ {β : Type} (f : β → Nat → β) (init : β) (m : Nat) :
    (List.range (m + 1)).foldl f init = f ((List.range m).foldl f init) m := by
  rw [List.range_succ, List.foldl_append]
  rfl

theorem create_list_partial (α : Type) [Inhabited α] (c : Nat) :
    ∀ m, m ≤ c →
      (List.range m).foldl create_list_step
        ({ nodes := List.replicate c default
           head := none
           tail := none
           free_list := none
           lastprocessed := 0
           number_of_elements := 0
           capacity := c
           spaces_sem := (c : Int)
           elements_sem := 0 } : ListState α) =
        buildPartial α c m
  | 0, _ => by rw [List.range_zero, List.foldl_nil, buildPartial_zero]
  | m + 1, h => by
    rw [foldl_range_succ, create_list_partial α c m (by omega),
      buildPartial_step α c m (by omega)]

/-- The state `create_list` builds is the `stateAfter` of the empty
registration sequence. -/
theorem create_list_eq (α : Type) [Inhabited α] (c : Nat) :
    create_list α c = stateAfter c ([] : List α) := by
  have h0 : create_list α c =
      (List.range c).foldl create_list_step
        ({ nodes := List.replicate c default
           head := none
           tail := none
           free_list := none
           lastprocessed := 0
           number_of_elements := 0
           capacity := c
           spaces_sem := (c : Int)
           elements_sem := 0 } : ListState α) := rfl
  rw [h0, create_list_partial α c c (le_refl c)]
  refine listStateExt ?_ (by simp [buildPartial, stateAfter]) (by simp [buildPartial, stateAfter])
    ?_ (by simp [buildPartial, stateAfter]) (by simp [buildPartial, stateAfter])
    (by simp [buildPartial, stateAfter]) (by simp [buildPartial, stateAfter])
    (by simp [buildPartial, stateAfter])
  · show (List.range c).map _ = (List.range c).map _
    apply map_range_congr
    intro i hi
    dsimp only [nodeAfter]
    simp only [List.length_nil, Nat.add_zero]
    split_ifs <;> rfl
  · show (if c = 0 then none else some (c - 1)) =
      (if List.length ([] : List α) = c then none else some (c - List.length ([] : List α) - 1))
    simp only [List.length_nil]
    rcases Nat.eq_zero_or_pos c with hc | hc
    · subst hc
      rfl
    · rw [if_neg (show ¬c = 0 by omega), if_neg (show ¬(0 : Nat) = c by omega)]
      exact congrArg some (by omega)

theorem getNodeD_stateAfter {α : Type} [Inhabited α] (c : Nat) (regs : List α)
    (j : Nat) (hj : j < c) :
    (stateAfter c regs).nodes.getD j default = nodeAfter c regs j := by
  show ((List.range c).map _).getD j default = _
  rw [getD_map_range _ _ _ _ hj]

/-- The state left by the free-list branch of `get_free_node`
(definitionally the body of its `some` branch), named so that the
evaluation of `add` on explicit states can be carried out
compositionally. -/
def gfn_state {α : Type} [Inhabited α] (st : ListState α) (m : Nat) : ListState α :=
  let st1 := { st with free_list := (getNode st m).next }
  let st2 :=
    match st1.free_list with
    | some f => setNode st1 f { getNode st1 f with prev := none }
    | none => st1
  setNode st2 m { getNode st2 m with next := none, prev := none }

theorem get_free_node_some {α : Type} [Inhabited α] (st : ListState α) (m : Nat)
    (hm : st.free_list = some m) :
    get_free_node st = (some m, gfn_state st m) := by
  simp only [get_free_node, gfn_state, hm]

/-- Evaluation of `add` when the semaphore has spaces, the capacity
check passes, and the free list is non-empty. -/
theorem add_eval {α : Type} [Inhabited α] (st : ListState α) (d : α) (m : Nat)
    (hsp : ¬st.spaces_sem ≤ 0)
    (hcap : ¬((st.capacity : Int) ≤ st.number_of_elements))
    (hfl : st.free_list = some m) :
    add st d =
      (AddResult.ok m,
       add_install (add_linkhead (add_fill
         (gfn_state { st with spaces_sem := st.spaces_sem - 1 } m) m d) m) m) := by
  simp only [add]
  rw [if_neg hsp, if_neg hcap,
    get_free_node_some ({ st with spaces_sem := st.spaces_sem - 1 }) m hfl]

theorem gfn_state_fields {α : Type} [Inhabited α] (st : ListState α) (m : Nat) :
    (gfn_state st m).head = st.head ∧ (gfn_state st m).tail = st.tail ∧
    (gfn_state st m).free_list = (getNode st m).next ∧
    (gfn_state st m).lastprocessed = st.lastprocessed ∧
    (gfn_state st m).number_of_elements = st.number_of_elements ∧
    (gfn_state st m).capacity = st.capacity ∧
    (gfn_state st m).spaces_sem = st.spaces_sem ∧
    (gfn_state st m).elements_sem = st.elements_sem := by
  simp only [gfn_state]
  rcases (getNode st m).next with _ | f <;> simp [setNode]

theorem gfn_state_nodes_none {α : Type} [Inhabited α] (st : ListState α) (m : Nat)
    (h : (getNode st m).next = none) :
    (gfn_state st m).nodes =
      st.nodes.set m { getNode st m with next := none, prev := none } := by
  simp only [gfn_state, h]
  rfl

theorem gfn_state_nodes_some {α : Type} [Inhabited α] (st : ListState α) (m f : Nat)
    (h : (getNode st m).next = some f) :
    (gfn_state st m).nodes =
      (st.nodes.set f { getNode st f with prev := none }).set m
        { getNode (setNode st f { getNode st f with prev := none }) m with
          next := none, prev := none } := by
  simp only [gfn_state, h]
  rfl

theorem add_fill_fields {α : Type} [Inhabited α] (st : ListState α) (n : Nat) (d : α) :
    (add_fill st n d).head = st.head ∧ (add_fill st n d).tail = st.tail ∧
    (add_fill st n d).free_list = st.free_list ∧
    (add_fill st n d).lastprocessed = st.lastprocessed ∧
    (add_fill st n d).number_of_elements = st.number_of_elements ∧
    (add_fill st n d).capacity = st.capacity ∧
    (add_fill st n d).spaces_sem = st.spaces_sem ∧
    (add_fill st n d).elements_sem = st.elements_sem := by
  simp [add_fill, setNode]

theorem add_fill_nodes {α : Type} [Inhabited α] (st : ListState α) (n : Nat) (d : α) :
    (add_fill st n d).nodes =
      st.nodes.set n { getNode st n with occupied := true, data := d } := rfl

theorem add_linkhead_of_none {α : Type} [Inhabited α] (st : ListState α) (n : Nat)
    (h : st.head = none) : add_linkhead st n = st := by
  simp [add_linkhead, h]

theorem add_linkhead_of_some {α : Type} [Inhabited α] (st : ListState α) (n oh : Nat)
    (h : st.head = some oh) :
    add_linkhead st n =
      setNode (setNode st oh { getNode st oh with prev := some n }) n
        { getNode (setNode st oh { getNode st oh with prev := some n }) n with
          prev := none, next := some oh } := by
  simp [add_linkhead, h]

theorem add_install_eq {α : Type} (st : ListState α) (n : Nat) :
    add_install st n =
      { st with head := some n
                lastprocessed := n
                number_of_elements := st.number_of_elements + 1
                tail := if st.tail = none then some n else st.tail
                elements_sem := st.elements_sem + 1 } := by
  rcases htl : st.tail with _ | t <;>
    simp only [add_install, htl] <;> rfl

theorem getD_append_left {β : Type} :
    ∀ (l l2 : List β) (i : Nat) (d : β), i < l.length → (l ++ l2).getD i d = l.getD i d
  | [], _, _, _, h => absurd h (by simp)
  | _ :: _, _, 0, _, _ => rfl
  | b :: t, l2, i + 1, d, h => by
    simp only [List.cons_append, List.getD_cons_succ]
    exact getD_append_left t l2 i d (by simpa using h)

theorem getD_append_length {β : Type} :
    ∀ (l : List β) (x d : β), (l ++ [x]).getD l.length d = x
  | [], _, _ => rfl
  | b :: t, x, d => by
    simp only [List.cons_append, List.length_cons, List.getD_cons_succ]
    exact getD_append_length t x d

theorem add_linkhead_fields {α : Type} [Inhabited α] (st : ListState α) (n : Nat) :
    (add_linkhead st n).head = st.head ∧ (add_linkhead st n).tail = st.tail ∧
    (add_linkhead st n).free_list = st.free_list ∧
    (add_linkhead st n).lastprocessed = st.lastprocessed ∧
    (add_linkhead st n).number_of_elements = st.number_of_elements ∧
    (add_linkhead st n).capacity = st.capacity ∧
    (add_linkhead st n).spaces_sem = st.spaces_sem ∧
    (add_linkhead st n).elements_sem = st.elements_sem := by
  rcases hh : st.head with _ | oh <;> simp [add_linkhead, hh, setNode]

theorem length_stateAfter_nodes {α : Type} [Inhabited α] (c : Nat) (regs : List α) :
    (stateAfter c regs).nodes.length = c := by
  show ((List.range c).map _).length = c
  simp

set_option maxHeartbeats 1600000 in
theorem add_stateAfter {α : Type} [Inhabited α] (c : Nat) (regs : List α) (d : α)
    (h : regs.length < c) :
    add (stateAfter c regs) d =
      (AddResult.ok (c - regs.length - 1), stateAfter c (regs ++ [d])) := by
  have hsp : ¬(stateAfter c regs).spaces_sem ≤ 0 := by
    dsimp only [stateAfter]
    omega
  have hcap : ¬(((stateAfter c regs).capacity : Int) ≤
      (stateAfter c regs).number_of_elements) := by
    dsimp only [stateAfter]
    omega
  have hfl : (stateAfter c regs).free_list = some (c - regs.length - 1) := by
    dsimp only [stateAfter]
    rw [if_neg (by omega)]
  rw [add_eval (stateAfter c regs) d (c - regs.length - 1) hsp hcap hfl, Prod.mk.injEq]
  refine ⟨rfl, ?_⟩
  rw [add_install_eq]
  set S := stateAfter c regs with hSdef
  set W : ListState α := { S with spaces_sem := S.spaces_sem - 1 } with hWdef
  set X := add_linkhead (add_fill (gfn_state W (c - regs.length - 1))
    (c - regs.length - 1) d) (c - regs.length - 1) with hXdef
  have hWnodes : W.nodes = S.nodes := rfl
  have hWlen : W.nodes.length = c := length_stateAfter_nodes c regs
  have hA1 : getNode W (c - regs.length - 1) = nodeAfter c regs (c - regs.length - 1) := by
    show S.nodes.getD (c - regs.length - 1) default = _
    exact getNodeD_stateAfter c regs _ (by omega)
  have hlen2 : (regs ++ [d]).length = regs.length + 1 := by simp
  -- field values of the pipeline state X
  have hXhead : X.head = S.head := by
    rw [hXdef, (add_linkhead_fields _ _).1, (add_fill_fields _ _ _).1,
      (gfn_state_fields _ _).1]
  have hXtail : X.tail = S.tail := by
    rw [hXdef, (add_linkhead_fields _ _).2.1, (add_fill_fields _ _ _).2.1,
      (gfn_state_fields _ _).2.1]
  have hXfree : X.free_list = (getNode W (c - regs.length - 1)).next := by
    rw [hXdef, (add_linkhead_fields _ _).2.2.1, (add_fill_fields _ _ _).2.2.1,
      (gfn_state_fields _ _).2.2.1]
  have hXcount : X.number_of_elements = S.number_of_elements := by
    rw [hXdef, (add_linkhead_fields _ _).2.2.2.2.1, (add_fill_fields _ _ _).2.2.2.2.1,
      (gfn_state_fields _ _).2.2.2.2.1]
  have hXcap : X.capacity = S.capacity := by
    rw [hXdef, (add_linkhead_fields _ _).2.2.2.2.2.1, (add_fill_fields _ _ _).2.2.2.2.2.1,
      (gfn_state_fields _ _).2.2.2.2.2.1]
  have hXspaces : X.spaces_sem = S.spaces_sem - 1 := by
    rw [hXdef, (add_linkhead_fields _ _).2.2.2.2.2.2.1,
      (add_fill_fields _ _ _).2.2.2.2.2.2.1, (gfn_state_fields _ _).2.2.2.2.2.2.1]
  have hXelem : X.elements_sem = S.elements_sem := by
    rw [hXdef, (add_linkhead_fields _ _).2.2.2.2.2.2.2,
      (add_fill_fields _ _ _).2.2.2.2.2.2.2, (gfn_state_fields _ _).2.2.2.2.2.2.2]
  have hShead : S.head = (if regs.length = 0 then none else some (c - regs.length)) := rfl
  have hStail : S.tail = (if regs.length = 0 then none else some (c - 1)) := rfl
  have hScount : S.number_of_elements = (regs.length : Int) := rfl
  have hScap : S.capacity = c := rfl
  have hSspaces : S.spaces_sem = (c : Int) - regs.length := rfl
  have hSelem : S.elements_sem = (regs.length : Int) := rfl
  have hnext : (nodeAfter c regs (c - regs.length - 1)).next =
      (if c - regs.length - 1 = 0 then none else some (c - regs.length - 1 - 1)) := by
    dsimp only [nodeAfter]
    rw [if_pos (show c - regs.length - 1 + regs.length < c by omega)]
  have hSnodes : S.nodes = (List.range c).map (nodeAfter c regs) := rfl
  have hRnodes : (stateAfter c (regs ++ [d])).nodes =
      (List.range c).map (nodeAfter c (regs ++ [d])) := rfl
  have hWlen2 : ∀ Q : NodeRec α, (W.nodes.set (c - regs.length - 2) Q).length = c := by
    intro Q
    rw [List.length_set, hWlen]
  refine listStateExt ?_ ?_ ?_ ?_ ?_ ?_ ?_ ?_ ?_
  · show X.nodes = (stateAfter c (regs ++ [d])).nodes
    rw [hRnodes]
    by_cases hkc : regs.length + 1 = c
    · -- the popped cell was the last free cell: its next pointer is none
      have hnx : (getNode W (c - regs.length - 1)).next = none := by
        rw [hA1, hnext, if_pos (by omega)]
      have hn1 : (gfn_state W (c - regs.length - 1)).nodes =
          W.nodes.set (c - regs.length - 1)
            { getNode W (c - regs.length - 1) with next := none, prev := none } :=
        gfn_state_nodes_none _ _ hnx
      have e3 : getNode (gfn_state W (c - regs.length - 1)) (c - regs.length - 1) =
          { getNode W (c - regs.length - 1) with next := none, prev := none } := by
        show (gfn_state W (c - regs.length - 1)).nodes.getD _ default = _
        rw [hn1]
        exact getD_set_eq _ _ _ _ (by rw [hWlen]; omega)
      have hfilln : (add_fill (gfn_state W (c - regs.length - 1))
          (c - regs.length - 1) d).nodes =
          W.nodes.set (c - regs.length - 1)
            { prev := none, next := none, occupied := true, data := d } := by
        rw [add_fill_nodes, hn1, e3, List.set_set]
      by_cases hk0 : regs.length = 0
      · -- c = 1: the list was empty, no head splice
        have hheadF : (add_fill (gfn_state W (c - regs.length - 1))
            (c - regs.length - 1) d).head = none := by
          rw [(add_fill_fields _ _ _).1, (gfn_state_fields _ _).1, hShead, if_pos hk0]
        rw [hXdef, add_linkhead_of_none _ _ hheadF, hfilln, hWnodes, hSnodes,
          set_map_range]
        apply map_range_congr
        intro i hi
        have hi0 : i = 0 := by omega
        subst hi0
        rw [if_pos (by omega)]
        have hR : nodeAfter c (regs ++ [d]) 0 =
            { prev := if 0 + (regs ++ [d]).length = c then none else some (0 - 1)
              next := if 0 + 1 = c then none else some (0 + 1)
              occupied := true
              data := (regs ++ [d]).getD (c - 1 - 0) default } := by
          dsimp only [nodeAfter]
          rw [if_neg (by rw [hlen2]; omega)]
        rw [hR, hlen2]
        refine nodeRecExt ?_ ?_ rfl ?_
        · show (none : Option Nat) =
            (if 0 + (regs.length + 1) = c then none else some (0 - 1))
          rw [if_pos (by omega)]
        · show (none : Option Nat) = (if 0 + 1 = c then none else some (0 + 1))
          rw [if_pos (by omega)]
        · show d = (regs ++ [d]).getD (c - 1 - 0) default
          have hidx : c - 1 - 0 = regs.length := by omega
          rw [hidx, getD_append_length]
      · -- k ≥ 1 and k + 1 = c: splice before the old head c - k
        have hheadF : (add_fill (gfn_state W (c - regs.length - 1))
            (c - regs.length - 1) d).head = some (c - regs.length) := by
          rw [(add_fill_fields _ _ _).1, (gfn_state_fields _ _).1, hShead, if_neg hk0]
        have e4 : getNode (add_fill (gfn_state W (c - regs.length - 1))
            (c - regs.length - 1) d) (c - regs.length) =
            nodeAfter c regs (c - regs.length) := by
          show (add_fill (gfn_state W (c - regs.length - 1))
            (c - regs.length - 1) d).nodes.getD _ default = _
          rw [hfilln, getD_set_ne _ _ _ _ _ (by omega)]
          exact getNodeD_stateAfter c regs _ (by omega)
        have e5 : getNode (setNode (add_fill (gfn_state W (c - regs.length - 1))
            (c - regs.length - 1) d) (c - regs.length)
              { getNode (add_fill (gfn_state W (c - regs.length - 1))
                  (c - regs.length - 1) d) (c - regs.length) with
                prev := some (c - regs.length - 1) }) (c - regs.length - 1) =
            { prev := none, next := none, occupied := true, data := d } := by
          show ((add_fill (gfn_state W (c - regs.length - 1))
              (c - regs.length - 1) d).nodes.set _ _).getD _ default = _
          rw [getD_set_ne _ _ _ _ _ (by omega), hfilln]
          exact getD_set_eq _ _ _ _ (by rw [hWlen]; omega)
        rw [hXdef, add_linkhead_of_some _ _ (c - regs.length) hheadF]
        show ((add_fill (gfn_state W (c - regs.length - 1))
            (c - regs.length - 1) d).nodes.set (c - regs.length) _).set
            (c - regs.length - 1) _ = _
        rw [e5, e4, hfilln, hWnodes, hSnodes, set_map_range, set_map_range,
          set_map_range]
        apply map_range_congr
        intro i hi
        by_cases him : i = c - regs.length - 1
        · rw [if_pos him]
          have hR : nodeAfter c (regs ++ [d]) i =
              { prev := if i + (regs ++ [d]).length = c then none else some (i - 1)
                next := if i + 1 = c then none else some (i + 1)
                occupied := true
                data := (regs ++ [d]).getD (c - 1 - i) default } := by
            dsimp only [nodeAfter]
            rw [if_neg (by rw [hlen2]; omega)]
          rw [hR, hlen2]
          refine nodeRecExt ?_ ?_ rfl ?_
          · show (none : Option Nat) =
              (if i + (regs.length + 1) = c then none else some (i - 1))
            rw [if_pos (by omega)]
          · show (some (c - regs.length) : Option Nat) =
              (if i + 1 = c then none else some (i + 1))
            rw [if_neg (by omega)]
            exact congrArg some (by omega)
          · show d = (regs ++ [d]).getD (c - 1 - i) default
            have hidx : c - 1 - i = regs.length := by omega
            rw [hidx, getD_append_length]
        · rw [if_neg him]
          by_cases hioh : i = c - regs.length
          · rw [if_pos hioh]
            have hL : nodeAfter c regs (c - regs.length) =
                { prev := if c - regs.length + regs.length = c then none
                    else some (c - regs.length - 1)
                  next := if c - regs.length + 1 = c then none
                    else some (c - regs.length + 1)
                  occupied := true
                  data := regs.getD (c - 1 - (c - regs.length)) default } := by
              dsimp only [nodeAfter]
              rw [if_neg (by omega)]
            have hR : nodeAfter c (regs ++ [d]) i =
                { prev := if i + (regs ++ [d]).length = c then none else some (i - 1)
                  next := if i + 1 = c then none else some (i + 1)
                  occupied := true
                  data := (regs ++ [d]).getD (c - 1 - i) default } := by
              dsimp only [nodeAfter]
              rw [if_neg (by rw [hlen2]; omega)]
            rw [hL, hR, hlen2]
            refine nodeRecExt ?_ ?_ rfl ?_
            · show (some (c - regs.length - 1) : Option Nat) =
                (if i + (regs.length + 1) = c then none else some (i - 1))
              rw [if_neg (by omega)]
              exact congrArg some (by omega)
            · show (if c - regs.length + 1 = c then none
                  else some (c - regs.length + 1)) =
                (if i + 1 = c then none else some (i + 1))
              subst hioh
              rfl
            · show regs.getD (c - 1 - (c - regs.length)) default =
                (regs ++ [d]).getD (c - 1 - i) default
              subst hioh
              exact (getD_append_left _ _ _ _ (by omega)).symm

          · rw [if_neg hioh, if_neg him]
            have hL : nodeAfter c regs i =
                { prev := if i + regs.length = c then none else some (i - 1)
                  next := if i + 1 = c then none else some (i + 1)
                  occupied := true
                  data := regs.getD (c - 1 - i) default } := by
              dsimp only [nodeAfter]
              rw [if_neg (by omega)]
            have hR : nodeAfter c (regs ++ [d]) i =
                { prev := if i + (regs ++ [d]).length = c then none else some (i - 1)
                  next := if i + 1 = c then none else some (i + 1)
                  occupied := true
                  data := (regs ++ [d]).getD (c - 1 - i) default } := by
              dsimp only [nodeAfter]
              rw [if_neg (by rw [hlen2]; omega)]
            rw [hL, hR, hlen2]
            refine nodeRecExt ?_ rfl rfl ?_
            · show (if i + regs.length = c then none else some (i - 1)) =
                (if i + (regs.length + 1) = c then none else some (i - 1))
              rw [if_neg (by omega), if_neg (by omega)]
            · show regs.getD (c - 1 - i) default =
                (regs ++ [d]).getD (c - 1 - i) default
              exact (getD_append_left _ _ _ _ (by omega)).symm
    · -- the free list still has cells: its new first cell is c - k - 2
      have hnx : (getNode W (c - regs.length - 1)).next =
          some (c - regs.length - 2) := by
        rw [hA1, hnext, if_neg (by omega)]
        exact congrArg some (by omega)
      have e1 : getNode W (c - regs.length - 2) =
          nodeAfter c regs (c - regs.length - 2) := by
        show S.nodes.getD _ default = _
        exact getNodeD_stateAfter c regs _ (by omega)
      have hn1 : (gfn_state W (c - regs.length - 1)).nodes =
          (W.nodes.set (c - regs.length - 2)
            { getNode W (c - regs.length - 2) with prev := none }).set
            (c - regs.length - 1)
            { getNode (setNode W (c - regs.length - 2)
                { getNode W (c - regs.length - 2) with prev := none })
                (c - regs.length - 1) with next := none, prev := none } :=
        gfn_state_nodes_some _ _ _ hnx
      have e2 : getNode (setNode W (c - regs.length - 2)
          { getNode W (c - regs.length - 2) with prev := none })
          (c - regs.length - 1) = nodeAfter c regs (c - regs.length - 1) := by
        show (W.nodes.set _ _).getD _ default = _
        rw [getD_set_ne _ _ _ _ _ (by omega)]
        exact getNodeD_stateAfter c regs _ (by omega)
      have e3 : getNode (gfn_state W (c - regs.length - 1)) (c - regs.length - 1) =
          { nodeAfter c regs (c - regs.length - 1) with next := none, prev := none } := by
        show (gfn_state W (c - regs.length - 1)).nodes.getD _ default = _
        rw [hn1, e2]
        exact getD_set_eq _ _ _ _ (by rw [hWlen2]; omega)
      have hfilln : (add_fill (gfn_state W (c - regs.length - 1))
          (c - regs.length - 1) d).nodes =
          (W.nodes.set (c - regs.length - 2)
            { nodeAfter c regs (c - regs.length - 2) with prev := none }).set
            (c - regs.length - 1)
            { prev := none, next := none, occupied := true, data := d } := by
        rw [add_fill_nodes, hn1, e2, e1, e3, List.set_set]
      by_cases hk0 : regs.length = 0
      · -- empty list: no head splice
        have hheadF : (add_fill (gfn_state W (c - regs.length - 1))
            (c - regs.length - 1) d).head = none := by
          rw [(add_fill_fields _ _ _).1, (gfn_state_fields _ _).1, hShead, if_pos hk0]
        rw [hXdef, add_linkhead_of_none _ _ hheadF, hfilln, hWnodes, hSnodes,
          set_map_range, set_map_range]
        apply map_range_congr
        intro i hi
        by_cases him : i = c - regs.length - 1
        · rw [if_pos him]
          have hR : nodeAfter c (regs ++ [d]) i =
              { prev := if i + (regs ++ [d]).length = c then none else some (i - 1)
                next := if i + 1 = c then none else some (i + 1)
                occupied := true
                data := (regs ++ [d]).getD (c - 1 - i) default } := by
            dsimp only [nodeAfter]
            rw [if_neg (by rw [hlen2]; omega)]
          rw [hR, hlen2]
          refine nodeRecExt ?_ ?_ rfl ?_
          · show (none : Option Nat) =
              (if i + (regs.length + 1) = c then none else some (i - 1))
            rw [if_pos (by omega)]
          · show (none : Option Nat) = (if i + 1 = c then none else some (i + 1))
            rw [if_pos (by omega)]
          · show d = (regs ++ [d]).getD (c - 1 - i) default
            have hidx : c - 1 - i = regs.length := by omega
            rw [hidx, getD_append_length]
        · rw [if_neg him]
          by_cases hif : i = c - regs.length - 2
          · rw [if_pos hif]
            have hL : nodeAfter c regs (c - regs.length - 2) =
                { prev := if c - regs.length - 2 + 1 + regs.length = c then none
                    else some (c - regs.length - 2 + 1)
                  next := if c - regs.length - 2 = 0 then none
                    else some (c - regs.length - 2 - 1)
                  occupied := false
                  data := default } := by
              dsimp only [nodeAfter]
              rw [if_pos (by omega)]
            have hR : nodeAfter c (regs ++ [d]) i =
                { prev := if i + 1 + (regs ++ [d]).length = c then none
                    else some (i + 1)
                  next := if i = 0 then none else some (i - 1)
                  occupied := false
                  data := default } := by
              dsimp only [nodeAfter]
              rw [if_pos (by rw [hlen2]; omega)]
            rw [hL, hR, hlen2]
            refine nodeRecExt ?_ ?_ rfl rfl
            · show (none : Option Nat) =
                (if i + 1 + (regs.length + 1) = c then none else some (i + 1))
              rw [if_pos (by omega)]
            · show (if c - regs.length - 2 = 0 then none
                  else some (c - regs.length - 2 - 1)) =
                (if i = 0 then none else some (i - 1))
              subst hif
              rfl
          · rw [if_neg hif]
            by_cases hzone : i + regs.length < c
            · have hL : nodeAfter c regs i =
                  { prev := if i + 1 + regs.length = c then none else some (i + 1)
                    next := if i = 0 then none else some (i - 1)
                    occupied := false
                    data := default } := by
                dsimp only [nodeAfter]
                rw [if_pos hzone]
              have hR : nodeAfter c (regs ++ [d]) i =
                  { prev := if i + 1 + (regs ++ [d]).length = c then none
                      else some (i + 1)
                    next := if i = 0 then none else some (i - 1)
                    occupied := false
                    data := default } := by
                dsimp only [nodeAfter]
                rw [if_pos (by rw [hlen2]; omega)]
              rw [hL, hR, hlen2]
              refine nodeRecExt ?_ rfl rfl rfl
              show (if i + 1 + regs.length = c then none else some (i + 1)) =
                (if i + 1 + (regs.length + 1) = c then none else some (i + 1))
              rw [if_neg (by omega), if_neg (by omega)]
            · have hL : nodeAfter c regs i =
                  { prev := if i + regs.length = c then none else some (i - 1)
                    next := if i + 1 = c then none else some (i + 1)
                    occupied := true
                    data := regs.getD (c - 1 - i) default } := by
                dsimp only [nodeAfter]
                rw [if_neg hzone]
              have hR : nodeAfter c (regs ++ [d]) i =
                  { prev := if i + (regs ++ [d]).length = c then none
                      else some (i - 1)
                    next := if i + 1 = c then none else some (i + 1)
                    occupied := true
                    data := (regs ++ [d]).getD (c - 1 - i) default } := by
                dsimp only [nodeAfter]
                rw [if_neg (by rw [hlen2]; omega)]
              rw [hL, hR, hlen2]
              refine nodeRecExt ?_ rfl rfl ?_
              · show (if i + regs.length = c then none else some (i - 1)) =
                  (if i + (regs.length + 1) = c then none else some (i - 1))
                rw [if_neg (by omega), if_neg (by omega)]
              · show regs.getD (c - 1 - i) default =
                  (regs ++ [d]).getD (c - 1 - i) default
                exact (getD_append_left _ _ _ _ (by omega)).symm
      · -- the general case: free cells remain and a head exists
        have hheadF : (add_fill (gfn_state W (c - regs.length - 1))
            (c - regs.length - 1) d).head = some (c - regs.length) := by
          rw [(add_fill_fields _ _ _).1, (gfn_state_fields _ _).1, hShead, if_neg hk0]
        have e4 : getNode (add_fill (gfn_state W (c - regs.length - 1))
            (c - regs.length - 1) d) (c - regs.length) =
            nodeAfter c regs (c - regs.length) := by
          show (add_fill (gfn_state W (c - regs.length - 1))
            (c - regs.length - 1) d).nodes.getD _ default = _
          rw [hfilln, getD_set_ne _ _ _ _ _ (by omega),
            getD_set_ne _ _ _ _ _ (by omega)]
          exact getNodeD_stateAfter c regs _ (by omega)
        have e5 : getNode (setNode (add_fill (gfn_state W (c - regs.length - 1))
            (c - regs.length - 1) d) (c - regs.length)
              { getNode (add_fill (gfn_state W (c - regs.length - 1))
                  (c - regs.length - 1) d) (c - regs.length) with
                prev := some (c - regs.length - 1) }) (c - regs.length - 1) =
            { prev := none, next := none, occupied := true, data := d } := by
          show ((add_fill (gfn_state W (c - regs.length - 1))
            (c - regs.length - 1) d).nodes.set _ _).getD _ default = _
          rw [getD_set_ne _ _ _ _ _ (by omega), hfilln]
          exact getD_set_eq _ _ _ _ (by rw [hWlen2]; omega)
        rw [hXdef, add_linkhead_of_some _ _ (c - regs.length) hheadF]
        show ((add_fill (gfn_state W (c - regs.length - 1))
            (c - regs.length - 1) d).nodes.set (c - regs.length) _).set
            (c - regs.length - 1) _ = _
        rw [e5, e4, hfilln, hWnodes, hSnodes, set_map_range, set_map_range,
          set_map_range, set_map_range]
        apply map_range_congr
        intro i hi
        by_cases him : i = c - regs.length - 1
        · rw [if_pos him]
          have hR : nodeAfter c (regs ++ [d]) i =
              { prev := if i + (regs ++ [d]).length = c then none else some (i - 1)
                next := if i + 1 = c then none else some (i + 1)
                occupied := true
                data := (regs ++ [d]).getD (c - 1 - i) default } := by
            dsimp only [nodeAfter]
            rw [if_neg (by rw [hlen2]; omega)]
          rw [hR, hlen2]
          refine nodeRecExt ?_ ?_ rfl ?_
          · show (none : Option Nat) =
              (if i + (regs.length + 1) = c then none else some (i - 1))
            rw [if_pos (by omega)]
          · show (some (c - regs.length) : Option Nat) =
              (if i + 1 = c then none else some (i + 1))
            rw [if_neg (by omega)]
            exact congrArg some (by omega)
          · show d = (regs ++ [d]).getD (c - 1 - i) default
            have hidx : c - 1 - i = regs.length := by omega
            rw [hidx, getD_append_length]
        · rw [if_neg him]
          by_cases hioh : i = c - regs.length
          · rw [if_pos hioh]
            have hL : nodeAfter c regs (c - regs.length) =
                { prev := if c - regs.length + regs.length = c then none
                    else some (c - regs.length - 1)
                  next := if c - regs.length + 1 = c then none
                    else some (c - regs.length + 1)
                  occupied := true
                  data := regs.getD (c - 1 - (c - regs.length)) default } := by
              dsimp only [nodeAfter]
              rw [if_neg (by omega)]
            have hR : nodeAfter c (regs ++ [d]) i =
                { prev := if i + (regs ++ [d]).length = c then none else some (i - 1)
                  next := if i + 1 = c then none else some (i + 1)
                  occupied := true
                  data := (regs ++ [d]).getD (c - 1 - i) default } := by
              dsimp only [nodeAfter]
              rw [if_neg (by rw [hlen2]; omega)]
            rw [hL, hR, hlen2]
            refine nodeRecExt ?_ ?_ rfl ?_
            · show (some (c - regs.length - 1) : Option Nat) =
                (if i + (regs.length + 1) = c then none else some (i - 1))
              rw [if_neg (by omega)]
              exact congrArg some (by omega)
            · show (if c - regs.length + 1 = c then none
                  else some (c - regs.length + 1)) =
                (if i + 1 = c then none else some (i + 1))
              subst hioh
              rfl
            · show regs.getD (c - 1 - (c - regs.length)) default =
                (regs ++ [d]).getD (c - 1 - i) default
              subst hioh
              exact (getD_append_left _ _ _ _ (by omega)).symm

          · rw [if_neg hioh, if_neg him]
            by_cases hif : i = c - regs.length - 2
            · rw [if_pos hif]
              have hL : nodeAfter c regs (c - regs.length - 2) =
                  { prev := if c - regs.length - 2 + 1 + regs.length = c then none
                      else some (c - regs.length - 2 + 1)
                    next := if c - regs.length - 2 = 0 then none
                      else some (c - regs.length - 2 - 1)
                    occupied := false
                    data := default } := by
                dsimp only [nodeAfter]
                rw [if_pos (by omega)]
              have hR : nodeAfter c (regs ++ [d]) i =
                  { prev := if i + 1 + (regs ++ [d]).length = c then none
                      else some (i + 1)
                    next := if i = 0 then none else some (i - 1)
                    occupied := false
                    data := default } := by
                dsimp only [nodeAfter]
                rw [if_pos (by rw [hlen2]; omega)]
              rw [hL, hR, hlen2]
              refine nodeRecExt ?_ ?_ rfl rfl
              · show (none : Option Nat) =
                  (if i + 1 + (regs.length + 1) = c then none else some (i + 1))
                rw [if_pos (by omega)]
              · show (if c - regs.length - 2 = 0 then none
                    else some (c - regs.length - 2 - 1)) =
                  (if i = 0 then none else some (i - 1))
                subst hif
                rfl

            · rw [if_neg hif]
              by_cases hzone : i + regs.length < c
              · have hL : nodeAfter c regs i =
                    { prev := if i + 1 + regs.length = c then none else some (i + 1)
                      next := if i = 0 then none else some (i - 1)
                      occupied := false
                      data := default } := by
                  dsimp only [nodeAfter]
                  rw [if_pos hzone]
                have hR : nodeAfter c (regs ++ [d]) i =
                    { prev := if i + 1 + (regs ++ [d]).length = c then none
                        else some (i + 1)
                      next := if i = 0 then none else some (i - 1)
                      occupied := false
                      data := default } := by
                  dsimp only [nodeAfter]
                  rw [if_pos (by rw [hlen2]; omega)]
                rw [hL, hR, hlen2]
                refine nodeRecExt ?_ rfl rfl rfl
                show (if i + 1 + regs.length = c then none else some (i + 1)) =
                  (if i + 1 + (regs.length + 1) = c then none else some (i + 1))
                rw [if_neg (by omega), if_neg (by omega)]
              · have hL : nodeAfter c regs i =
                    { prev := if i + regs.length = c then none else some (i - 1)
                      next := if i + 1 = c then none else some (i + 1)
                      occupied := true
                      data := regs.getD (c - 1 - i) default } := by
                  dsimp only [nodeAfter]
                  rw [if_neg hzone]
                have hR : nodeAfter c (regs ++ [d]) i =
                    { prev := if i + (regs ++ [d]).length = c then none
                        else some (i - 1)
                      next := if i + 1 = c then none else some (i + 1)
                      occupied := true
                      data := (regs ++ [d]).getD (c - 1 - i) default } := by
                  dsimp only [nodeAfter]
                  rw [if_neg (by rw [hlen2]; omega)]
                rw [hL, hR, hlen2]
                refine nodeRecExt ?_ rfl rfl ?_
                · show (if i + regs.length = c then none else some (i - 1)) =
                    (if i + (regs.length + 1) = c then none else some (i - 1))
                  rw [if_neg (by omega), if_neg (by omega)]
                · show regs.getD (c - 1 - i) default =
                    (regs ++ [d]).getD (c - 1 - i) default
                  exact (getD_append_left _ _ _ _ (by omega)).symm
  · show some (c - regs.length - 1) = (stateAfter c (regs ++ [d])).head
    have hR : (stateAfter c (regs ++ [d])).head = some (c - (regs.length + 1)) := by
      dsimp only [stateAfter]
      rw [hlen2, if_neg (show ¬regs.length + 1 = 0 by omega)]
    rw [hR]
    exact congrArg some (by omega)
  · show (if X.tail = none then some (c - regs.length - 1) else X.tail) =
      (stateAfter c (regs ++ [d])).tail
    have hR : (stateAfter c (regs ++ [d])).tail = some (c - 1) := by
      dsimp only [stateAfter]
      rw [hlen2, if_neg (show ¬regs.length + 1 = 0 by omega)]
    rw [hXtail, hStail, hR]
    by_cases hk0 : regs.length = 0
    · rw [if_pos hk0, if_pos rfl]
      exact congrArg some (by omega)
    · rw [if_neg hk0, if_neg (by simp)]
  · show X.free_list = (stateAfter c (regs ++ [d])).free_list
    have hR : (stateAfter c (regs ++ [d])).free_list =
        (if regs.length + 1 = c then none else some (c - (regs.length + 1) - 1)) := by
      dsimp only [stateAfter]
      rw [hlen2]
    rw [hXfree, hA1, hnext, hR]
    by_cases hkc : regs.length + 1 = c
    · rw [if_pos (by omega), if_pos hkc]
    · rw [if_neg (by omega), if_neg hkc]
      exact congrArg some (by omega)
  · show c - regs.length - 1 = (stateAfter c (regs ++ [d])).lastprocessed
    have hR : (stateAfter c (regs ++ [d])).lastprocessed = c - (regs.length + 1) := by
      dsimp only [stateAfter]
      rw [hlen2, if_neg (show ¬regs.length + 1 = 0 by omega)]
    rw [hR]
    omega
  · show X.number_of_elements + 1 = (stateAfter c (regs ++ [d])).number_of_elements
    have hR : (stateAfter c (regs ++ [d])).number_of_elements =
        (((regs.length + 1 : Nat)) : Int) := by
      dsimp only [stateAfter]
      rw [hlen2]
    rw [hXcount, hScount, hR]
    push_cast
    ring
  · show X.capacity = (stateAfter c (regs ++ [d])).capacity
    rw [hXcap, hScap]
    rfl
  · show X.spaces_sem = (stateAfter c (regs ++ [d])).spaces_sem
    have hR : (stateAfter c (regs ++ [d])).spaces_sem =
        (c : Int) - ((regs.length + 1 : Nat) : Int) := by
      dsimp only [stateAfter]
      rw [hlen2]
    rw [hXspaces, hSspaces, hR]
    push_cast
    ring
  · show X.elements_sem + 1 = (stateAfter c (regs ++ [d])).elements_sem
    have hR : (stateAfter c (regs ++ [d])).elements_sem =
        (((regs.length + 1 : Nat)) : Int) := by
      dsimp only [stateAfter]
      rw [hlen2]
    rw [hXelem, hSelem, hR]
    push_cast
    ring

theorem registerFold_stateAfter {α : Type} [Inhabited α] (c : Nat) :
    ∀ (ds regs : List α), regs.length + ds.length ≤ c →
      ds.foldl (fun st d => (add st d).2) (stateAfter c regs) =
        stateAfter c (regs ++ ds)
  | [], regs, _ => by simp
  | d :: ds, regs, h => by
    rw [List.foldl_cons]
    show ds.foldl _ (add (stateAfter c regs) d).2 = _
    rw [add_stateAfter c regs d (by simp at h; omega)]
    show ds.foldl _ (stateAfter c (regs ++ [d])) = _
    rw [registerFold_stateAfter c ds (regs ++ [d]) (by simp at h ⊢; omega)]
    rw [List.append_assoc, List.singleton_append]

/-- A sequence of successful registrations starting from the fresh
registry produces exactly the `stateAfter` state. -/
theorem registerAll_eq (c : Nat) (ds : List Drone) (h : ds.length ≤ c) :
    registerAll c ds = stateAfter c ds := by
  rw [registerAll, create_list_eq]
  have hf := registerFold_stateAfter c ds [] (by simpa using h)
  simpa using hf

theorem chainFrom_none {α : Type} [Inhabited α] (nodes : List (NodeRec α)) :
    ∀ fuel, chainFrom nodes fuel none = []
  | 0 => rfl
  | _ + 1 => rfl

/-- Walking the `next` pointers of a `stateAfter` state from any
occupied cell `j` visits exactly the cells `j, j+1, ..., c-1`. -/
theorem chainFrom_stateAfter {α : Type} [Inhabited α] (c : Nat) (regs : List α) :
    ∀ (fuel j : Nat), c - regs.length ≤ j → j < c → c - j ≤ fuel →
      chainFrom (stateAfter c regs).nodes fuel (some j) = List.range' j (c - j)
  | 0, j, _, hj, hf => by omega
  | fuel + 1, j, hge, hj, hf => by
    show j :: chainFrom (stateAfter c regs).nodes fuel
      ((stateAfter c regs).nodes.getD j default).next = _
    rw [getNodeD_stateAfter c regs j hj]
    have hnext : (nodeAfter c regs j).next =
        (if j + 1 = c then none else some (j + 1)) := by
      dsimp only [nodeAfter]
      rw [if_neg (by omega)]
    rw [hnext]
    by_cases hjc : j + 1 = c
    · rw [if_pos hjc, chainFrom_none]
      have hcj : c - j = 1 := by omega
      rw [hcj, List.range'_one]
    · rw [if_neg hjc,
        chainFrom_stateAfter c regs fuel (j + 1) (by omega) (by omega) (by omega)]
      have hcj : c - j = (c - (j + 1)) + 1 := by omega
      rw [hcj, List.range'_succ]

theorem map_range'_getD_reverse {β : Type} [Inhabited β] :
    ∀ (l : List β) (a : Nat),
      (List.range' a l.length).map
        (fun j => l.getD (a + l.length - 1 - j) default) = l.reverse
  | [], a => by simp
  | x :: t, a => by
    show (List.range' a (t.length + 1)).map
      (fun j => (x :: t).getD (a + (t.length + 1) - 1 - j) default) = (x :: t).reverse
    rw [List.range'_concat, List.map_append]
    have hfront : (List.range' a t.length).map
        (fun j => (x :: t).getD (a + (t.length + 1) - 1 - j) default) =
        (List.range' a t.length).map
          (fun j => t.getD (a + t.length - 1 - j) default) := by
      apply List.map_congr_left
      intro j hj
      rcases List.mem_range'.mp hj with ⟨i, hi, rfl⟩
      have harith : a + (t.length + 1) - 1 - (a + 1 * i) =
          (a + t.length - 1 - (a + 1 * i)) + 1 := by omega
      show (x :: t).getD (a + (t.length + 1) - 1 - (a + 1 * i)) default = _
      rw [harith, List.getD_cons_succ]
    rw [hfront, map_range'_getD_reverse t a]
    have htail : (x :: t).getD (a + (t.length + 1) - 1 - (a + 1 * t.length)) default
        = x := by
      have hz : a + (t.length + 1) - 1 - (a + 1 * t.length) = 0 := by omega
      rw [hz]
      rfl
    rw [List.map_cons, List.map_nil, htail, List.reverse_cons]

/-- Head-to-tail iteration over a `stateAfter` registry visits the
registered elements in reverse registration order. -/
theorem iterationData_stateAfter {α : Type} [Inhabited α] (c : Nat) (regs : List α)
    (h : regs.length ≤ c) :
    iterationData (stateAfter c regs) = regs.reverse := by
  rcases Nat.eq_zero_or_pos regs.length with hk0 | hkpos
  · have hnil : regs = [] := List.length_eq_zero.mp hk0
    subst hnil
    have hh : (stateAfter c ([] : List α)).head = none := by
      dsimp only [stateAfter, List.length_nil]
      rw [if_pos rfl]
    rw [iterationData, iterationNodes, hh, chainFrom_none]
    rfl
  · have hh : (stateAfter c regs).head = some (c - regs.length) := by
      dsimp only [stateAfter]
      rw [if_neg (by omega)]
    rw [iterationData, iterationNodes, hh, length_stateAfter_nodes,
      chainFrom_stateAfter c regs c (c - regs.length) (le_refl _) (by omega) (by omega)]
    have hck : c - (c - regs.length) = regs.length := by omega
    rw [hck]
    have hmap : (List.range' (c - regs.length) regs.length).map
        (fun n => (getNode (stateAfter c regs) n).data) =
        (List.range' (c - regs.length) regs.length).map
          (fun j => regs.getD (c - regs.length + regs.length - 1 - j) default) := by
      apply List.map_congr_left
      intro j hj
      rcases List.mem_range'.mp hj with ⟨i, hi, rfl⟩
      have hread : getNode (stateAfter c regs) (c - regs.length + 1 * i) =
          nodeAfter c regs (c - regs.length + 1 * i) := by
        show (stateAfter c regs).nodes.getD _ default = _
        exact getNodeD_stateAfter c regs _ (by omega)
      show (getNode (stateAfter c regs) (c - regs.length + 1 * i)).data = _
      rw [hread]
      have hocc : nodeAfter c regs (c - regs.length + 1 * i) =
          { prev := if c - regs.length + 1 * i + regs.length = c then none
              else some (c - regs.length + 1 * i - 1)
            next := if c - regs.length + 1 * i + 1 = c then none
              else some (c - regs.length + 1 * i + 1)
            occupied := true
            data := regs.getD (c - 1 - (c - regs.length + 1 * i)) default } := by
        dsimp only [nodeAfter]
        rw [if_neg (by omega)]
      rw [hocc]
      show regs.getD (c - 1 - (c - regs.length + 1 * i)) default = _
      have harith : c - 1 - (c - regs.length + 1 * i) =
          c - regs.length + regs.length - 1 - (c - regs.length + 1 * i) := by omega
      rw [harith]
    rw [hmap, map_range'_getD_reverse]

/-! ## C7: matcher traversal order -/

def c7A : Drone :=
  { id := 0, status := DroneStatus.IDLE, coord := ⟨0, 0⟩, target := ⟨0, 0⟩,
    last_update := 0, socket := 7 }

def c7B : Drone :=
  { id := 1, status := DroneStatus.IDLE, coord := ⟨5, 5⟩, target := ⟨5, 5⟩,
    last_update := 0, socket := 8 }

def c7survivors : List Survivor :=
  [{ status := 0, coord := ⟨4, 5⟩, discovery_time := 0, helped_time := 0,
     info := "s0" }]

def c7run : ListState Drone × List Survivor × List (Nat × Int) :=
  matcher_cycle (registerAll 4 [c7A, c7B]) c7survivors 5 (fun _ => true)

/-- Counterexample to C7 as stated: register `c7A` (cell 3) then `c7B`
(cell 2) into a capacity-4 registry.  `add` prepends at the head, and
the matcher walks head→`next`, so the traversal yields `[c7B, c7A]` —
the REVERSE of registration order.  Concretely, with a single waiting
survivor next to `c7B` but far from `c7A`, the cycle's assignment log
is `[(2, 0)]`: the later-registered `c7B` is considered first and takes
the survivor, ending ON_MISSION while the earlier `c7A` stays IDLE;
under the claimed earliest-first order `c7A` (the only idle drone
considered before `c7B`) would have received survivor 0 instead. -/
theorem C7_counterexample :
    iterationData (registerAll 4 [c7A, c7B]) = [c7B, c7A] ∧
    iterationData (registerAll 4 [c7A, c7B]) ≠ [c7A, c7B] ∧
    c7run.2.2 = [(2, 0)] ∧
    (getNode c7run.1 2).data.id = 1 ∧
    (getNode c7run.1 2).data.status = DroneStatus.ON_MISSION ∧
    (getNode c7run.1 3).data.id = 0 ∧
    (getNode c7run.1 3).data.status = DroneStatus.IDLE := by
  decide

/-- C7 (amended): within a single matcher cycle the drones are
considered in REVERSE registration order.  For any capacity `c` and
any sequence `ds` of at most `c` registrations into a fresh registry,
the head-to-tail traversal that `drone_centric_ai_controller` performs
visits exactly the registered drones, in reverse registration order
(`ds.reverse`), because `add` pushes each new drone at the list head. -/
theorem C7_matcher_reverse_registration_order (c : Nat) (ds : List Drone)
    (h : ds.length ≤ c) :
    iterationData (registerAll c ds) = ds.reverse := by
  rw [registerAll_eq c ds h, iterationData_stateAfter c ds h]

/-- Witness for C7 (amended) at a concrete input. -/
theorem C7_matcher_reverse_registration_order_witness :
    ([c7A, c7B] : List Drone).length ≤ 4 ∧
    iterationData (registerAll 4 [c7A, c7B]) = [c7A, c7B].reverse :=
  ⟨by decide, C7_matcher_reverse_registration_order 4 [c7A, c7B] (by decide)⟩

/-! ## C4: behaviour of a full registry -/

def c4A : Drone :=
  { id := 0, status := DroneStatus.IDLE, coord := ⟨1, 1⟩, target := ⟨1, 1⟩,
    last_update := 0, socket := 5 }

def c4B : Drone :=
  { id := 1, status := DroneStatus.IDLE, coord := ⟨2, 2⟩, target := ⟨2, 2⟩,
    last_update := 0, socket := 6 }

def c4C : Drone :=
  { id := 2, status := DroneStatus.IDLE, coord := ⟨3, 3⟩, target := ⟨3, 3⟩,
    last_update := 0, socket := 9 }

/-- Counterexample to C4 as stated: fill a capacity-2 registry with two
drones.  A further `add` does NOT return a failure ("no handle,
capacity exceeded"): `sem_wait(&list->spaces_sem)` finds the counter at
0 and blocks forever, so the capacity re-check and the NULL-return path
are never reached; consequently a handshake on the full registry never
reaches the `if (!node) close(sock)` path either — the connection is
not closed, the session hangs inside `add`. -/
theorem C4_counterexample :
    (add (registerAll 2 [c4A, c4B]) c4C).1 = AddResult.blocked ∧
    (add (registerAll 2 [c4A, c4B]) c4C).1 ≠ AddResult.failed ∧
    (handshake_register (registerAll 2 [c4A, c4B]) ⟨4, 4⟩ DroneStatus.IDLE 9 3).1 =
      HandshakeOutcome.blockedForever ∧
    (handshake_register (registerAll 2 [c4A, c4B]) ⟨4, 4⟩ DroneStatus.IDLE 9 3).1 ≠
      HandshakeOutcome.closedNoRegister := by
  decide

/-- C4 (amended): when the registry is full (any capacity `c`, filled
by `c` successful registrations), a further `add` blocks forever on the
spaces semaphore and changes nothing, and a handshake arriving at the
full registry likewise blocks forever inside `add` — the connection is
neither closed nor registered. -/
theorem C4_full_registry_blocks (c : Nat) (ds : List Drone) (hfull : ds.length = c)
    (d : Drone) (coord : Coord) (status : DroneStatus) (sock : Int) (now : Nat) :
    add (registerAll c ds) d = (AddResult.blocked, registerAll c ds) ∧
    handshake_register (registerAll c ds) coord status sock now =
      (HandshakeOutcome.blockedForever, registerAll c ds) := by
  have heq := registerAll_eq c ds (by omega)
  have hsp : (registerAll c ds).spaces_sem ≤ 0 := by
    rw [heq]
    dsimp only [stateAfter]
    omega
  have haddAll : ∀ dx : Drone,
      add (registerAll c ds) dx = (AddResult.blocked, registerAll c ds) := by
    intro dx
    simp only [add]
    rw [if_pos hsp]
  refine ⟨haddAll d, ?_⟩
  simp only [handshake_register]
  rw [haddAll _]

/-- Witness for C4 (amended) at a concrete input. -/
theorem C4_full_registry_blocks_witness :
    ([c4A, c4B] : List Drone).length = 2 ∧
    (add (registerAll 2 [c4A, c4B]) c4C = (AddResult.blocked, registerAll 2 [c4A, c4B]) ∧
     handshake_register (registerAll 2 [c4A, c4B]) ⟨4, 4⟩ DroneStatus.IDLE 9 3 =
       (HandshakeOutcome.blockedForever, registerAll 2 [c4A, c4B])) :=
  ⟨rfl, C4_full_registry_blocks 2 [c4A, c4B] rfl c4C ⟨4, 4⟩ DroneStatus.IDLE 9 3⟩

/-! ## C2: first-minimal characterization -/

theorem fcws_loop_noimp (p : Coord) :
    ∀ (l : List Survivor) (i : Nat) (best mind : Int),
      (∀ s ∈ l, s.status = 0 → mind ≤ calculate_distance p s.coord) →
      fcws_loop p l i best mind = best
  | [], _, _, _, _ => rfl
  | s :: rest, i, best, mind, h => by
    simp only [fcws_loop]
    by_cases hs : s.status = 0
    · rw [if_pos hs, if_neg (by
        have := h s (List.mem_cons_self s rest) hs
        omega)]
      exact fcws_loop_noimp p rest (i + 1) best mind
        (fun t ht hts => h t (List.mem_cons_of_mem s ht) hts)
    · rw [if_neg hs]
      exact fcws_loop_noimp p rest (i + 1) best mind
        (fun t ht hts => h t (List.mem_cons_of_mem s ht) hts)

theorem fcws_loop_imp (p : Coord) :
    ∀ (l : List Survivor) (i : Nat) (best mind : Int),
      (∃ s ∈ l, s.status = 0 ∧ calculate_distance p s.coord < mind) →
      ∃ k : Nat, k < l.length ∧
        fcws_loop p l i best mind = ((i + k : Nat) : Int) ∧
        (l.getD k default).status = 0 ∧
        calculate_distance p (l.getD k default).coord < mind ∧
        (∀ j, j < l.length → (l.getD j default).status = 0 →
          calculate_distance p (l.getD j default).coord < mind →
          calculate_distance p (l.getD k default).coord ≤
            calculate_distance p (l.getD j default).coord) ∧
        (∀ j, j < k → (l.getD j default).status = 0 →
          calculate_distance p (l.getD j default).coord < mind →
          calculate_distance p (l.getD k default).coord <
            calculate_distance p (l.getD j default).coord)
  | [], _, _, _, h => absurd h (by simp)
  | s :: rest, i, best, mind, h => by
    simp only [fcws_loop]
    by_cases hs : s.status = 0
    · rw [if_pos hs]
      by_cases hd : calculate_distance p s.coord < mind
      · rw [if_pos hd]
        by_cases himp : ∃ t ∈ rest, t.status = 0 ∧
            calculate_distance p t.coord < calculate_distance p s.coord
        · rcases fcws_loop_imp p rest (i + 1) (i : Int)
            (calculate_distance p s.coord) himp with
            ⟨k, hk, hres, hkw, hkd, hmin, hstr⟩
          refine ⟨k + 1, by simpa using hk, ?_, by simpa using hkw, ?_, ?_, ?_⟩
          · rw [hres]
            exact congrArg _ (by omega)
          · simp only [List.getD_cons_succ]
            omega
          · intro j hj hjw hjd
            match j with
            | 0 =>
              simp only [List.getD_cons_succ, List.getD_cons_zero] at hjd hjw ⊢
              omega
            | j + 1 =>
              simp only [List.getD_cons_succ] at hjd hjw ⊢
              rcases lt_or_le (calculate_distance p ((rest.getD j default).coord))
                (calculate_distance p s.coord) with hc | hc
              · exact hmin j (by simpa using hj) hjw hc
              · omega
          · intro j hj hjw hjd
            match j with
            | 0 =>
              simp only [List.getD_cons_succ, List.getD_cons_zero] at hjd hjw ⊢
              omega
            | j + 1 =>
              simp only [List.getD_cons_succ] at hjd hjw ⊢
              rcases lt_or_le (calculate_distance p ((rest.getD j default).coord))
                (calculate_distance p s.coord) with hc | hc
              · exact hstr j (by omega) hjw hc
              · omega
        · push_neg at himp
          refine ⟨0, by simp, ?_, by simpa using hs, by simpa using hd, ?_, ?_⟩
          · rw [fcws_loop_noimp p rest (i + 1) (i : Int)
              (calculate_distance p s.coord)
              (fun t ht hts => himp t ht hts)]
            exact congrArg _ (by omega)
          · intro j hj hjw hjd
            match j with
            | 0 => simp
            | j + 1 =>
              simp only [List.getD_cons_succ, List.getD_cons_zero] at hjw ⊢
              have hmem : rest.getD j default ∈ rest := by
                have hjl : j < rest.length := by simpa using hj
                rw [List.getD_eq_getElem rest default hjl]
                exact List.getElem_mem hjl
              exact himp (rest.getD j default) hmem hjw
          · intro j hj
            omega
      · rw [if_neg hd]
        have himp : ∃ t ∈ rest, t.status = 0 ∧ calculate_distance p t.coord < mind := by
          rcases h with ⟨t, htm, htw, htd⟩
          rcases List.mem_cons.mp htm with rfl | htm2
          · omega
          · exact ⟨t, htm2, htw, htd⟩
        rcases fcws_loop_imp p rest (i + 1) best mind himp with
          ⟨k, hk, hres, hkw, hkd, hmin, hstr⟩
        refine ⟨k + 1, by simpa using hk, ?_, by simpa using hkw, by simpa using hkd,
          ?_, ?_⟩
        · rw [hres]
          exact congrArg _ (by omega)
        · intro j hj hjw hjd
          match j with
          | 0 =>
            simp only [List.getD_cons_zero] at hjd
            omega
          | j + 1 =>
            simp only [List.getD_cons_succ] at hjd hjw ⊢
            exact hmin j (by simpa using hj) hjw hjd
        · intro j hj hjw hjd
          match j with
          | 0 =>
            simp only [List.getD_cons_zero] at hjd
            omega
          | j + 1 =>
            simp only [List.getD_cons_succ] at hjd hjw ⊢
            exact hstr j (by omega) hjw hjd
    · rw [if_neg hs]
      have himp : ∃ t ∈ rest, t.status = 0 ∧ calculate_distance p t.coord < mind := by
        rcases h with ⟨t, htm, htw, htd⟩
        rcases List.mem_cons.mp htm with rfl | htm2
        · exact absurd htw hs
        · exact ⟨t, htm2, htw, htd⟩
      rcases fcws_loop_imp p rest (i + 1) best mind himp with
        ⟨k, hk, hres, hkw, hkd, hmin, hstr⟩
      refine ⟨k + 1, by simpa using hk, ?_, by simpa using hkw, by simpa using hkd,
        ?_, ?_⟩
      · rw [hres]
        exact congrArg _ (by omega)
      · intro j hj hjw hjd
        match j with
        | 0 =>
          simp only [List.getD_cons_zero] at hjw
          exact absurd hjw hs
        | j + 1 =>
          simp only [List.getD_cons_succ] at hjd hjw ⊢
          exact hmin j (by simpa using hj) hjw hjd
      · intro j hj hjw hjd
        match j with
        | 0 =>
          simp only [List.getD_cons_zero] at hjw
          exact absurd hjw hs
        | j + 1 =>
          simp only [List.getD_cons_succ] at hjd hjw ⊢
          exact hstr j (by omega) hjw hjd

/-- C2 (amended): when every waiting survivor lies at Manhattan distance
strictly below INT_MAX of the drone (the regime the strict
`dist < min_distance` test seeded with INT_MAX handles correctly),
`find_closest_waiting_survivor` returns -1 exactly when no survivor is
waiting, and otherwise returns the index of a waiting survivor whose
distance is minimal among all waiting survivors, and strictly below
every earlier waiting survivor's distance (ties broken by lowest
index).  Without that hypothesis the claim is false: see the
counterexample at distance exactly INT_MAX. -/
theorem C2_first_minimal (drone : Drone) (survivors : List Survivor)
    (hall : ∀ s ∈ survivors, s.status = 0 →
      calculate_distance drone.coord s.coord < INT_MAX) :
    ((∀ s ∈ survivors, s.status ≠ 0) →
      find_closest_waiting_survivor drone survivors = -1) ∧
    ((∃ s ∈ survivors, s.status = 0) →
      ∃ k : Nat, k < survivors.length ∧
        find_closest_waiting_survivor drone survivors = (k : Int) ∧
        (survivors.getD k default).status = 0 ∧
        (∀ j, j < survivors.length → (survivors.getD j default).status = 0 →
          calculate_distance drone.coord (survivors.getD k default).coord ≤
            calculate_distance drone.coord (survivors.getD j default).coord) ∧
        (∀ j, j < k → (survivors.getD j default).status = 0 →
          calculate_distance drone.coord (survivors.getD k default).coord <
            calculate_distance drone.coord (survivors.getD j default).coord)) := by
  constructor
  · intro hno
    exact fcws_loop_noimp drone.coord survivors 0 (-1) INT_MAX
      (fun s hsm hsw => absurd hsw (hno s hsm))
  · intro hex
    have himp : ∃ s ∈ survivors, s.status = 0 ∧
        calculate_distance drone.coord s.coord < INT_MAX := by
      rcases hex with ⟨s, hsm, hsw⟩
      exact ⟨s, hsm, hsw, hall s hsm hsw⟩
    rcases fcws_loop_imp drone.coord survivors 0 (-1) INT_MAX himp with
      ⟨k, hk, hres, hkw, hkd, hmin, hstr⟩
    refine ⟨k, hk, by simpa using hres, hkw, ?_, ?_⟩
    · intro j hj hjw
      have hjmem : survivors.getD j default ∈ survivors := by
        rw [List.getD_eq_getElem survivors default hj]
        exact List.getElem_mem hj
      exact hmin j hj hjw (hall (survivors.getD j default) hjmem hjw)
    · intro j hj hjw
      have hjl : j < survivors.length := by omega
      have hjmem : survivors.getD j default ∈ survivors := by
        rw [List.getD_eq_getElem survivors default hjl]
        exact List.getElem_mem hjl
      exact hstr j hj hjw (hall (survivors.getD j default) hjmem hjw)

def c2wsurvivors : List Survivor :=
  [{ status := 0, coord := ⟨3, 0⟩, discovery_time := 0, helped_time := 0,
     info := "a" },
   { status := 1, coord := ⟨0, 0⟩, discovery_time := 0, helped_time := 0,
     info := "b" },
   { status := 0, coord := ⟨1, 0⟩, discovery_time := 0, helped_time := 0,
     info := "c" }]

/-- Witness for C2 (amended) at a concrete input. -/
theorem C2_first_minimal_witness :
    (∀ s ∈ c2wsurvivors, s.status = 0 →
      calculate_distance c2drone.coord s.coord < INT_MAX) ∧
    (((∀ s ∈ c2wsurvivors, s.status ≠ 0) →
      find_closest_waiting_survivor c2drone c2wsurvivors = -1) ∧
     ((∃ s ∈ c2wsurvivors, s.status = 0) →
      ∃ k : Nat, k < c2wsurvivors.length ∧
        find_closest_waiting_survivor c2drone c2wsurvivors = (k : Int) ∧
        (c2wsurvivors.getD k default).status = 0 ∧
        (∀ j, j < c2wsurvivors.length → (c2wsurvivors.getD j default).status = 0 →
          calculate_distance c2drone.coord (c2wsurvivors.getD k default).coord ≤
            calculate_distance c2drone.coord (c2wsurvivors.getD j default).coord) ∧
        (∀ j, j < k → (c2wsurvivors.getD j default).status = 0 →
          calculate_distance c2drone.coord (c2wsurvivors.getD k default).coord <
            calculate_distance c2drone.coord (c2wsurvivors.getD j default).coord))) :=
  ⟨by decide, C2_first_minimal c2drone c2wsurvivors (by decide)⟩

end EmergencyDrone
